import Mathlib

/-!
Verification development for the positron input-mapping and dispatch engine.

The definitions below are a shallow embedding of the TypeScript sources:
  * the trigger hash functions of `KeyTrigger`, `MouseButtonTrigger` and
    `MouseAxisTrigger` (`packages/core/src/input/controls/*.ts`),
  * `InputMapping` (`packages/core/src/input/input-mapping.ts`),
  * the dispatch engine `InputManager` (the 345-line source file holding
    `update`, `processQueue`, `invokeActions`, `invokeAnalogs`,
    `invokeAnalogsAndActions`, `invokeTimedActions`, `invokeUpdateActions`,
    `computeAnalogValue` and the event-queued resolvers),
  * the browser raw input sources (`browser-key-input.ts`).

Conventions of the embedding:
  * JS numbers that hold times, deltas and analog values are modelled as `ℚ`;
    key codes, button indices, axes and trigger hashes as `ℤ`.
  * `x & 0xff` on a value guarded into `[0, 255]` is written `x % 256`, and
    `base | low` with disjoint bit ranges (`base ∈ {256, 512, 768}`,
    `low < 256`) is written `base + low`; on the guarded ranges these are
    the same functions as the source's bitwise forms.
  * JS object tables keyed by integers (`pressedButtons`, `axisValues`,
    `bindings`) iterate their keys in ascending numeric order, so the two
    tables that the engine iterates are kept as ascending association lists
    (`upsertSorted`).  `bindings` and `mappings` are only ever looked up by
    key, so they are plain association lists.
  * the source's `bindings` table stores references to the `InputMapping`
    objects also registered in `mappings`; both tables are keyed consistently
    (a name is created at most once), so the embedding stores mapping names
    in `bindings` and resolves them through `mappings` (`getMapping`).
  * listener invocation is observed through an explicit trace of `Callback`
    records; a listener is a tagged value carrying an identity and the list
    of events its callback pushes back into the engine queue when invoked
    (the one side effect of listeners the spec discusses).  JS truthiness
    of a number-table lookup (`undefined` and `0` are falsy) is `truthyQ`.
-/

namespace Positron

/-- `FastMath.clamp` from `math/fast-math.ts`. -/
def clamp (input mn mx : ℚ) : ℚ :=
  if input < mn then mn else if input > mx then mx else input

/-- `KeyTrigger.keyHash`: guarded to `[0,255]`, otherwise the source returns
`undefined` (no `return` is reached), modelled as `none`. -/
def keyHash (keyCode : ℤ) : Option ℤ :=
  if 0 ≤ keyCode ∧ keyCode ≤ 255 then some (keyCode % 256) else none

/-- `MouseButtonTrigger.mouseButtonHash`: `256 | (b & 0xff)` on `[0,255]`,
`undefined` outside. -/
def mouseButtonHash (mouseButton : ℤ) : Option ℤ :=
  if 0 ≤ mouseButton ∧ mouseButton ≤ 255 then some (256 + mouseButton % 256) else none

/-- `MouseAxisTrigger.mouseAxisHash`: `(negative ? 768 : 512) | (a & 0xff)`
on `[0,255]`, `undefined` outside. -/
def mouseAxisHash (mouseAxis : ℤ) (negative : Bool) : Option ℤ :=
  if 0 ≤ mouseAxis ∧ mouseAxis ≤ 255 then
    some ((if negative then 768 else 512) + mouseAxis % 256)
  else none

/-- The three trigger variants (`KeyTrigger`, `MouseButtonTrigger`,
`MouseAxisTrigger`). -/
inductive Trigger
  | key (keyCode : ℤ)
  | mouseButton (mouseButton : ℤ)
  | mouseAxis (mouseAxis : ℤ) (negative : Bool)
deriving DecidableEq, Repr

/-- `triggerHashCode()` of each trigger class. -/
def Trigger.triggerHashCode : Trigger → Option ℤ
  | .key c => keyHash c
  | .mouseButton b => mouseButtonHash b
  | .mouseAxis a n => mouseAxisHash a n

/-- The constructor guards: `KeyTrigger` validates nothing,
`MouseButtonTrigger` throws on a negative index, `MouseAxisTrigger` throws
unless the axis is in `[0,2]`. -/
def Trigger.constructible : Trigger → Bool
  | .key _ => true
  | .mouseButton b => decide (0 ≤ b)
  | .mouseAxis a _ => decide (0 ≤ a ∧ a ≤ 2)

/-- The representable ranges named by the spec: key codes in `[0,255]`,
mouse button indices in `[0,255]`, mouse axes in `[0,2]`. -/
def Trigger.representable : Trigger → Bool
  | .key c => decide (0 ≤ c ∧ c ≤ 255)
  | .mouseButton b => decide (0 ≤ b ∧ b ≤ 255)
  | .mouseAxis a _ => decide (0 ≤ a ∧ a ≤ 2)

/-- `MouseInput.AXIS_X`. -/
def AXIS_X : ℤ := 0
/-- `MouseInput.AXIS_Y`. -/
def AXIS_Y : ℤ := 1
/-- `MouseInput.AXIS_WHEEL`. -/
def AXIS_WHEEL : ℤ := 2

/-- Payload of the three `InputEvent` subclasses (`KeyInputEvent`,
`MouseButtonEvent`, `MouseMotionEvent`).  Fields not read by the dispatch
engine (`keyChar`, the absolute wheel value) are kept where cheap. -/
inductive EventData
  | keyEvt (keyCode : ℤ) (pressed repeating : Bool)
  | mouseButtonEvt (btnIndex : ℤ) (pressed : Bool) (x y : ℚ)
  | mouseMotionEvt (x y dx dy wheel deltaWheel : ℚ)
deriving DecidableEq, Repr, Inhabited

/-- `InputEvent`: capture timestamp, one-shot consumed flag, payload. -/
structure InputEvent where
  time : ℚ
  consumed : Bool := false
  data : EventData
deriving DecidableEq, Repr, Inhabited

/-- A registered listener (`ActionListener` / `AnalogListener`), identified
by `id` (standing for JS object identity).  `pushes` is the list of events
the wrapped callback pushes back into the engine queue each time it is
invoked — the listener side effect discussed by the spec's queue-drain
section; a plain listener has `pushes = []`. -/
inductive InputListener
  | action (id : ℕ) (pushes : List InputEvent)
  | analog (id : ℕ) (pushes : List InputEvent)
deriving DecidableEq, Repr

/-- Events pushed by one invocation of the listener. -/
def InputListener.pushes : InputListener → List InputEvent
  | .action _ p => p
  | .analog _ p => p

/-- `InputMapping`: name, bound trigger hashes (the source pushes the hash
numbers into `triggers`), and the listener list in registration order. -/
structure InputMapping where
  name : String
  triggers : List ℤ := []
  listeners : List InputListener := []
deriving DecidableEq, Repr

/-- One observable callback invocation made by the engine. -/
inductive Callback
  | beginInput (rawIdx : ℕ)
  | endInput (rawIdx : ℕ)
  | rawEvent (rawIdx : ℕ) (evt : InputEvent)
  | onAction (listener : InputListener) (name : String) (pressed : Bool) (tpf : ℚ)
  | onAnalog (listener : InputListener) (name : String) (value : ℚ) (tpf : ℚ)
deriving DecidableEq, Repr

/-- Association-list lookup (JS object property read). -/
def alookup {α β : Type} [DecidableEq α] : List (α × β) → α → Option β
  | [], _ => none
  | (k, v) :: rest, a => if k = a then some v else alookup rest a

/-- Insert-or-replace keeping keys in ascending order: JS objects iterate
integer-like keys in ascending numeric order, so the tables the engine
iterates (`pressedButtons`, `axisValues`) are kept sorted. -/
def upsertSorted : List (ℤ × ℚ) → ℤ → ℚ → List (ℤ × ℚ)
  | [], k, v => [(k, v)]
  | (k', v') :: rest, k, v =>
    if k < k' then (k, v) :: (k', v') :: rest
    else if k = k' then (k, v) :: rest
    else (k', v') :: upsertSorted rest k v

/-- `delete obj[k]` on an association list. -/
def removeKey : List (ℤ × ℚ) → ℤ → List (ℤ × ℚ)
  | [], _ => []
  | (k', v') :: rest, k => if k' = k then rest else (k', v') :: removeKey rest k

/-- Insert-or-replace for the `bindings` table (order of distinct keys is
never observed, only lookups). -/
def aupsert {α β : Type} [DecidableEq α] : List (α × β) → α → β → List (α × β)
  | [], k, v => [(k, v)]
  | (k', v') :: rest, k, v =>
    if k' = k then (k, v) :: rest else (k', v') :: aupsert rest k v

/-- JS truthiness of a number-table lookup: `undefined` and `0` are falsy. -/
def truthyQ : Option ℚ → Bool
  | none => false
  | some q => decide (q ≠ 0)

/-- The `InputManager` state.  `rawListeners` is the pass-through listener
list (never populated by any method of this port, but iterated by
`processQueue`); its entries are identities. -/
structure InputManager where
  frameTPF : ℚ := 0
  lastLastUpdateTime : ℚ := 0
  lastUpdateTime : ℚ := 0
  frameDelta : ℚ := 0
  globalAxisDeadZone : ℚ := 1/20
  mappings : List (String × InputMapping) := []
  bindings : List (ℤ × List String) := []
  inputQueue : List InputEvent := []
  rawListeners : List ℕ := []
  pressedButtons : List (ℤ × ℚ) := []
  axisValues : List (ℤ × ℚ) := []
  safeMode : Bool := false
deriving Repr

/-- Resolve a mapping name through the registry (the source follows an
object reference; names are registered at most once, so the lookup cannot
miss in reachable states — the default is never observed). -/
def getMapping (s : InputManager) (n : String) : InputMapping :=
  (alookup s.mappings n).getD { name := n }

/-- The action-listener callbacks of one mapping, in the source's downward
loop order (`for (j = listenerSize - 1; j >= 0; j--)`). -/
def actionCallbacksOf (m : InputMapping) (pressed : Bool) (tpf : ℚ) : List Callback :=
  m.listeners.reverse.filterMap fun l =>
    match l with
    | .action _ _ => some (.onAction l m.name pressed tpf)
    | .analog _ _ => none

/-- The analog-listener callbacks of one mapping, downward loop order. -/
def analogCallbacksOf (m : InputMapping) (value tpf : ℚ) : List Callback :=
  m.listeners.reverse.filterMap fun l =>
    match l with
    | .analog _ _ => some (.onAnalog l m.name value tpf)
    | .action _ _ => none

/-- Mixed action/analog callbacks of one mapping as produced by
`invokeAnalogsAndActions` (action listeners fire only when `valueChanged`). -/
def mixedCallbacksOf (m : InputMapping) (valueChanged : Bool) (value tpf : ℚ) :
    List Callback :=
  m.listeners.reverse.filterMap fun l =>
    match l with
    | .action _ _ => if valueChanged then some (.onAction l m.name true tpf) else none
    | .analog _ _ => some (.onAnalog l m.name value tpf)

/-- `InputManager.invokeActions` (lines 162-180): mappings in downward loop
order, then each mapping's action listeners in downward loop order. -/
def invokeActions (s : InputManager) (hash : ℤ) (pressed : Bool) : List Callback :=
  match alookup s.bindings hash with
  | none => []
  | some names =>
    names.reverse.flatMap fun n => actionCallbacksOf (getMapping s n) pressed s.frameTPF

/-- `InputManager.invokeAnalogs` (lines 201-223): when `isAxis` is false the
value is scaled by `frameTPF` before delivery. -/
def invokeAnalogs (s : InputManager) (hash : ℤ) (value : ℚ) (isAxis : Bool) :
    List Callback :=
  match alookup s.bindings hash with
  | none => []
  | some names =>
    names.reverse.flatMap fun n =>
      analogCallbacksOf (getMapping s n)
        (if isAxis then value else value * s.frameTPF) s.frameTPF

/-- `InputManager.invokeAnalogsAndActions` (lines 225-258).  Below the dead
zone it still delivers analogs (with `isAxis = !applyTpf`); at or above, the
`valueChanged` flag is the truthiness of the (never written) `axisValues`
entry. -/
def invokeAnalogsAndActions (s : InputManager) (hash : ℤ)
    (value effectiveDeadZone : ℚ) (applyTpf : Bool) : List Callback :=
  if value < effectiveDeadZone then
    invokeAnalogs s hash value (!applyTpf)
  else
    match alookup s.bindings hash with
    | none => []
    | some names =>
      names.reverse.flatMap fun n =>
        mixedCallbacksOf (getMapping s n)
          (!truthyQ (alookup s.axisValues hash))
          (if applyTpf then value * s.frameTPF else value) s.frameTPF

/-- `InputManager.computeAnalogValue` (lines 260-266). -/
def computeAnalogValue (s : InputManager) (timeDelta : ℚ) : ℚ :=
  if s.safeMode ∨ s.frameDelta = 0 then 1
  else clamp (timeDelta / s.frameDelta) 0 1

/-- `InputManager.invokeTimedActions` (lines 268-291).  On press the start
time is recorded; on release the entry is deleted, and (when the recorded
start time is truthy and the interval positive) one analog is emitted with
the normalized value. -/
def invokeTimedActions (s : InputManager) (hash : ℤ) (time : ℚ) (pressed : Bool) :
    InputManager × List Callback :=
  match alookup s.bindings hash with
  | none => (s, [])
  | some _ =>
    if pressed then
      ({ s with pressedButtons := upsertSorted s.pressedButtons hash time }, [])
    else
      match alookup s.pressedButtons hash with
      | none => ({ s with pressedButtons := removeKey s.pressedButtons hash }, [])
      | some pressTime =>
        if pressTime = 0 then
          ({ s with pressedButtons := removeKey s.pressedButtons hash }, [])
        else
          if 0 < time - max pressTime s.lastLastUpdateTime then
            ({ s with pressedButtons := removeKey s.pressedButtons hash },
              invokeAnalogs s hash
                (computeAnalogValue s (time - max pressTime s.lastLastUpdateTime)) false)
          else
            ({ s with pressedButtons := removeKey s.pressedButtons hash }, [])

/-- `InputManager.onKeyEventQueued` (lines 152-160).  Repeats are dropped;
an out-of-range key code hashes to `undefined`, which matches no binding
(modelled as an immediate no-op). -/
def onKeyEventQueued (s : InputManager) (keyCode : ℤ) (pressed repeating : Bool)
    (time : ℚ) : InputManager × List Callback :=
  if repeating then (s, [])
  else
    match keyHash keyCode with
    | none => (s, [])
    | some hash =>
      ((invokeTimedActions s hash time pressed).1,
       invokeActions s hash pressed ++ (invokeTimedActions s hash time pressed).2)

/-- `InputManager.onMouseButtonEventQueued` (lines 319-323). -/
def onMouseButtonEventQueued (s : InputManager) (btnIndex : ℤ) (pressed : Bool)
    (time : ℚ) : InputManager × List Callback :=
  match mouseButtonHash btnIndex with
  | none => (s, [])
  | some hash =>
    ((invokeTimedActions s hash time pressed).1,
     invokeActions s hash pressed ++ (invokeTimedActions s hash time pressed).2)

/-- `InputManager.onMouseMotionEventQueued` (lines 330-343): each non-zero
component dispatches on its signed half-axis, X and Y normalized by 1024,
wheel by 100; no engine state is touched. -/
def onMouseMotionEventQueued (s : InputManager) (dx dy deltaWheel : ℚ) :
    List Callback :=
  (if dx ≠ 0 then
    match mouseAxisHash AXIS_X (decide (dx < 0)) with
    | none => []
    | some h => invokeAnalogsAndActions s h (|dx| / 1024) s.globalAxisDeadZone false
   else []) ++
  (if dy ≠ 0 then
    match mouseAxisHash AXIS_Y (decide (dy < 0)) with
    | none => []
    | some h => invokeAnalogsAndActions s h (|dy| / 1024) s.globalAxisDeadZone false
   else []) ++
  (if deltaWheel ≠ 0 then
    match mouseAxisHash AXIS_WHEEL (decide (deltaWheel < 0)) with
    | none => []
    | some h => invokeAnalogsAndActions s h (|deltaWheel| / 100) s.globalAxisDeadZone false
   else [])

/-- Dispatch of one queued event by payload kind (the `instanceof` chain of
`processQueue`'s resolution loop). -/
def resolveEvent (s : InputManager) (e : InputEvent) : InputManager × List Callback :=
  match e.data with
  | .mouseMotionEvt _ _ dx dy _ dw => (s, onMouseMotionEventQueued s dx dy dw)
  | .keyEvt code pr rep => onKeyEventQueued s code pr rep e.time
  | .mouseButtonEvt idx pr _ _ => onMouseButtonEventQueued s idx pr e.time

/-- The queue-push side effects performed by the listeners invoked in a
trace (each such push is a call back into `onKeyEvent` / `onMouseButtonEvent`
/ `onMouseMotionEvent`, which appends to `inputQueue`). -/
def pushesOfTrace : List Callback → List InputEvent
  | [] => []
  | .onAction l _ _ _ :: rest => l.pushes ++ pushesOfTrace rest
  | .onAnalog l _ _ _ :: rest => l.pushes ++ pushesOfTrace rest
  | _ :: rest => pushesOfTrace rest

/-- `event.setConsumed()` on the live queue at index `i`. -/
def setConsumedAt : List InputEvent → ℕ → List InputEvent
  | [], _ => []
  | e :: rest, 0 => { e with consumed := true } :: rest
  | e :: rest, n + 1 => e :: setConsumedAt rest n

/-- The resolution loop of `processQueue` (lines 130-147): `remaining`
counts the snapshot entries still to process (`queueSize - i`), `i` indexes
the live queue, which grows at the end by listener pushes.  Consumed events
are skipped; others are resolved and then marked consumed. -/
def resolveLoop (i : ℕ) (s : InputManager) (queue : List InputEvent) :
    ℕ → InputManager × List InputEvent × List Callback
  | 0 => (s, queue, [])
  | remaining + 1 =>
    if (queue.getD i default).consumed then
      resolveLoop (i + 1) s queue remaining
    else
      ((resolveLoop (i + 1) (resolveEvent s (queue.getD i default)).1
          (setConsumedAt queue i ++ pushesOfTrace (resolveEvent s (queue.getD i default)).2)
          remaining).1,
       (resolveLoop (i + 1) (resolveEvent s (queue.getD i default)).1
          (setConsumedAt queue i ++ pushesOfTrace (resolveEvent s (queue.getD i default)).2)
          remaining).2.1,
       (resolveEvent s (queue.getD i default)).2 ++
         (resolveLoop (i + 1) (resolveEvent s (queue.getD i default)).1
            (setConsumedAt queue i ++ pushesOfTrace (resolveEvent s (queue.getD i default)).2)
            remaining).2.2)

/-- The raw pass-through deliveries of one raw listener: a
`beginInput`/`endInput` bracket around every unconsumed snapshot event, in
arrival order (lines 107-128). -/
def rawDeliveries (rawIdx : ℕ) (snapshot : List InputEvent) : List Callback :=
  .beginInput rawIdx ::
    (snapshot.filterMap fun e => if e.consumed then none else some (.rawEvent rawIdx e)) ++
    [.endInput rawIdx]

/-- `InputManager.processQueue` (lines 104-150): snapshot size is the queue
length at drain start; raw listeners are served first, then each snapshot
event is resolved; finally `this.inputQueue = []` discards the whole live
queue (including any events pushed during the drain). -/
def processQueue (s : InputManager) : InputManager × List Callback :=
  ({ (resolveLoop 0 s s.inputQueue s.inputQueue.length).1 with inputQueue := [] },
    (s.rawListeners.flatMap fun idx => rawDeliveries idx s.inputQueue) ++
      (resolveLoop 0 s s.inputQueue s.inputQueue.length).2.2)

/-- `InputManager.invokeUpdateActions` (lines 182-199): settle every still
pressed button over `lastUpdateTime - max(lastLastUpdateTime, pressTime)`
when positive, then replay the (never written) `axisValues` table. -/
def invokeUpdateActions (s : InputManager) : List Callback :=
  (s.pressedButtons.flatMap fun p =>
    if 0 < s.lastUpdateTime - max s.lastLastUpdateTime p.2 then
      invokeAnalogs s p.1
        (computeAnalogValue s (s.lastUpdateTime - max s.lastLastUpdateTime p.2)) false
    else []) ++
  (s.axisValues.flatMap fun p => invokeAnalogs s p.1 (p.2 * s.frameTPF) true)

/-- The state at the start of a tick (lines 80-95 of `update`): the tick
length, the safe-mode flag and the input-clock frame delta are recorded,
and `q` is the queue after `keys.update(); mouse.update()` have pushed the
tick's events. -/
def tickStart (s : InputManager) (tpf currentTime : ℚ) (q : List InputEvent) :
    InputManager :=
  { s with
      frameTPF := tpf,
      safeMode := decide (tpf < 3/200),
      frameDelta := currentTime - s.lastUpdateTime,
      inputQueue := q }

/-- `InputManager.update` (lines 80-102).  `currentTime` is the
`keys.getInputTime()` read; `newEvents` are the events the raw sources push
during `keys.update(); mouse.update()`.  After the drain and the settle
phase the two boundary timestamps advance.  Events pushed by settle-phase
listeners land in the (already cleared) queue and survive to the next tick. -/
def update (s : InputManager) (tpf currentTime : ℚ) (newEvents : List InputEvent) :
    InputManager × List Callback :=
  let s2 := (processQueue (tickStart s tpf currentTime (s.inputQueue ++ newEvents))).1
  let tr1 := (processQueue (tickStart s tpf currentTime (s.inputQueue ++ newEvents))).2
  ({ s2 with
      inputQueue := s2.inputQueue ++ pushesOfTrace (invokeUpdateActions s2),
      lastLastUpdateTime := s2.lastUpdateTime,
      lastUpdateTime := currentTime }, tr1 ++ invokeUpdateActions s2)

/-- Run a sequence of ticks; each item is `(tpf, currentTime, newEvents)`. -/
def runUpdates (s : InputManager) : List (ℚ × ℚ × List InputEvent) →
    InputManager × List Callback
  | [] => (s, [])
  | (tpf, time, evs) :: rest =>
    ((runUpdates (update s tpf time evs).1 rest).1,
     (update s tpf time evs).2 ++ (runUpdates (update s tpf time evs).1 rest).2)

/-- `bindTrigger` step of `InputManager.addMapping` (lines 63-76): duplicate
binds are a logged no-op; an out-of-range trigger hashes to `undefined`,
whose JS-key entry no dispatched event can ever reach (no-op here). -/
def bindTrigger (s : InputManager) (mappingName : String) (t : Trigger) :
    InputManager :=
  match t.triggerHashCode with
  | none => s
  | some hash =>
    let names := (alookup s.bindings hash).getD []
    if mappingName ∈ names then s
    else
      { s with
          bindings := aupsert s.bindings hash (names ++ [mappingName]),
          mappings := s.mappings.map fun p =>
            if p.1 = mappingName then (p.1, { p.2 with triggers := p.2.triggers ++ [hash] })
            else p }

/-- `InputManager.addMapping` (lines 56-78): get-or-create the mapping, then
bind every trigger. -/
def addMapping (s : InputManager) (mappingName : String) (triggers : List Trigger) :
    InputManager :=
  let s :=
    if (alookup s.mappings mappingName).isSome then s
    else { s with mappings := s.mappings ++ [(mappingName, { name := mappingName })] }
  triggers.foldl (fun acc t => bindTrigger acc mappingName t) s

/-- `InputManager.mapListener` (lines 301-312): get-or-create each mapping
and append the listener unless already registered (reference identity). -/
def mapListener (s : InputManager) (listener : InputListener)
    (mappingNames : List String) : InputManager :=
  mappingNames.foldl (fun acc n =>
    let acc :=
      if (alookup acc.mappings n).isSome then acc
      else { acc with mappings := acc.mappings ++ [(n, { name := n })] }
    if listener ∈ (getMapping acc n).listeners then acc
    else
      { acc with
          mappings := acc.mappings.map fun p =>
            if p.1 = n then (p.1, { p.2 with listeners := p.2.listeners ++ [listener] })
            else p }) s

/-- `InputManager.addListener` (action listeners). -/
def addListener (s : InputManager) (l : InputListener) (mappingNames : List String) :
    InputManager := mapListener s l mappingNames

/-- `InputManager.addAnalogListener`. -/
def addAnalogListener (s : InputManager) (l : InputListener)
    (mappingNames : List String) : InputManager := mapListener s l mappingNames

/-- `InputManager.onKeyEvent` / `onMouseButtonEvent` / `onMouseMotionEvent`:
the raw sink just appends to the queue. -/
def onQueuedPush (s : InputManager) (e : InputEvent) : InputManager :=
  { s with inputQueue := s.inputQueue ++ [e] }

/-- The buffer drain of `BrowserKeyInput.update` / `BrowserMouseInput.update`:
`while (buf.length > 0) listener.onX(buf.pop())` — deliveries taken from the
back of the buffer. -/
def drainPop {α : Type} : List α → List α
  | [] => []
  | x :: xs =>
    (x :: xs).getLastD x :: drainPop (x :: xs).dropLast
termination_by l => l.length
decreasing_by simp [List.length_dropLast]

/-- `BrowserKeyInput.update` (lines 48-56): the delivery order of the
buffered key events. -/
def browserKeyUpdate (buffer : List InputEvent) : List InputEvent :=
  drainPop buffer

/-- `BrowserMouseInput.update` (lines 210-220): motion events drained first,
then button events, each by popping from the back. -/
def browserMouseUpdate (motions buttons : List InputEvent) : List InputEvent :=
  drainPop motions ++ drainPop buttons

/-! ### Spec-side definitions (refinement targets) -/

/-- Spec-side rendering of action dispatch in registration order: mappings
in bind order, each mapping's action listeners in the order they were
registered.  The engine is claimed to produce exactly the reverse. -/
def invokeActionsInOrder (s : InputManager) (hash : ℤ) (pressed : Bool) :
    List Callback :=
  match alookup s.bindings hash with
  | none => []
  | some names =>
    names.flatMap fun n =>
      (getMapping s n).listeners.filterMap fun l =>
        match l with
        | .action _ _ => some (.onAction l (getMapping s n).name pressed s.frameTPF)
        | .analog _ _ => none

/-- Spec-side rendering of analog dispatch in registration order (same
value scaling as `invokeAnalogs`). -/
def invokeAnalogsInOrder (s : InputManager) (hash : ℤ) (value : ℚ) (isAxis : Bool) :
    List Callback :=
  match alookup s.bindings hash with
  | none => []
  | some names =>
    names.flatMap fun n =>
      (getMapping s n).listeners.filterMap fun l =>
        match l with
        | .analog _ _ =>
          some (.onAnalog l (getMapping s n).name
            (if isAxis then value else value * s.frameTPF) s.frameTPF)
        | .action _ _ => none

/-- Spec-side drain: resolve exactly the snapshot taken at drain start, as
a plain list traversal with no live queue. -/
def resolveSnapshot (s : InputManager) : List InputEvent → InputManager × List Callback
  | [] => (s, [])
  | e :: rest =>
    if e.consumed then resolveSnapshot s rest
    else
      ((resolveSnapshot (resolveEvent s e).1 rest).1,
       (resolveEvent s e).2 ++ (resolveSnapshot (resolveEvent s e).1 rest).2)

/-! ### Helper lemmas -/

lemma emod256_eq {c : ℤ} (h0 : 0 ≤ c) (h1 : c ≤ 255) : c % 256 = c :=
  Int.emod_eq_of_lt h0 (by omega)

/-- The integer a representable trigger hashes to. -/
def encodeT : Trigger → ℤ
  | .key c => c
  | .mouseButton b => 256 + b
  | .mouseAxis a n => (if n then 768 else 512) + a

lemma hash_of_representable (t : Trigger) (h : t.representable = true) :
    t.triggerHashCode = some (encodeT t) := by
  cases t with
  | key c =>
    simp only [Trigger.representable, decide_eq_true_eq] at h
    simp [Trigger.triggerHashCode, keyHash, h.1, h.2, encodeT, emod256_eq h.1 h.2]
  | mouseButton b =>
    simp only [Trigger.representable, decide_eq_true_eq] at h
    simp [Trigger.triggerHashCode, mouseButtonHash, h.1, h.2, encodeT, emod256_eq h.1 h.2]
  | mouseAxis a n =>
    simp only [Trigger.representable, decide_eq_true_eq] at h
    have h255 : a ≤ 255 := by omega
    simp [Trigger.triggerHashCode, mouseAxisHash, h.1, h255, encodeT, emod256_eq h.1 h255]

lemma representable_bounds (t : Trigger) (h : t.representable = true) :
    (match t with
      | .key c => 0 ≤ c ∧ c ≤ 255
      | .mouseButton b => 0 ≤ b ∧ b ≤ 255
      | .mouseAxis a _ => 0 ≤ a ∧ a ≤ 2) := by
  cases t <;> simpa [Trigger.representable, decide_eq_true_eq] using h

lemma reverse_flatMap_reverse {α β : Type} (F : α → List β) (l : List α) :
    l.reverse.flatMap (fun a => (F a).reverse) = (l.flatMap F).reverse := by
  rw [List.reverse_flatMap]
  rfl

lemma drainPop_concat {α : Type} (ys : List α) (y : α) :
    drainPop (ys ++ [y]) = y :: drainPop ys := by
  cases ys with
  | nil => simp [drainPop]
  | cons a as =>
    have h1 : (a :: (as ++ [y])).getLastD a = y := by
      rw [← List.cons_append]
      exact List.getLastD_concat a y (a :: as)
    have h2 : (a :: (as ++ [y])).dropLast = a :: as := by
      rw [← List.cons_append]
      exact List.dropLast_concat
    rw [List.cons_append, drainPop, h1, h2]

lemma drainPop_eq_reverse {α : Type} (l : List α) : drainPop l = l.reverse := by
  induction l using List.reverseRecOn with
  | nil => rw [drainPop]; rfl
  | append_singleton ys y ih => rw [drainPop_concat, ih, List.reverse_append]; rfl

lemma foldl_onQueuedPush (l : List InputEvent) (s : InputManager) :
    l.foldl onQueuedPush s = { s with inputQueue := s.inputQueue ++ l } := by
  induction l generalizing s with
  | nil => simp
  | cons e rest ih => simp [ih, onQueuedPush]

lemma getD_append_length (l1 : List InputEvent) (a : InputEvent)
    (l2 : List InputEvent) (d : InputEvent) :
    (l1 ++ a :: l2).getD l1.length d = a := by
  induction l1 with
  | nil => rfl
  | cons x xs ih => simpa using ih

lemma setConsumedAt_append_length (l1 : List InputEvent) (a : InputEvent)
    (l2 : List InputEvent) :
    setConsumedAt (l1 ++ a :: l2) l1.length = l1 ++ { a with consumed := true } :: l2 := by
  induction l1 with
  | nil => rfl
  | cons x xs ih => simp [setConsumedAt, ih]

/-- The live-queue resolution loop behaves as the pure snapshot traversal:
its final state and its trace depend only on the snapshot (`todo`), not on
events appended during the drain (`extra`, which includes listener pushes)
nor on the already-processed prefix (`done`). -/
lemma resolveLoop_snapshot (todo : List InputEvent) :
    ∀ (done extra : List InputEvent) (s : InputManager),
      ((resolveLoop done.length s (done ++ (todo ++ extra)) todo.length).1 =
          (resolveSnapshot s todo).1) ∧
      ((resolveLoop done.length s (done ++ (todo ++ extra)) todo.length).2.2 =
          (resolveSnapshot s todo).2) := by
  induction todo with
  | nil =>
    intro done extra s
    exact ⟨rfl, rfl⟩
  | cons e rest ih =>
    intro done extra s
    have hgetD : (done ++ (e :: (rest ++ extra))).getD done.length default = e :=
      getD_append_length done e (rest ++ extra) default
    have hq : (e :: rest) ++ extra = e :: (rest ++ extra) := rfl
    by_cases hc : e.consumed
    · rw [show (e :: rest).length = rest.length + 1 from rfl, resolveLoop, hq, hgetD,
        if_pos hc]
      rw [show done.length + 1 = (done ++ [e]).length by simp]
      rw [show done ++ (e :: (rest ++ extra)) = (done ++ [e]) ++ (rest ++ extra) by simp]
      rw [resolveSnapshot, if_pos hc]
      exact ih (done ++ [e]) extra s
    · rw [show (e :: rest).length = rest.length + 1 from rfl, resolveLoop, hq, hgetD,
        if_neg hc]
      rw [setConsumedAt_append_length done e (rest ++ extra)]
      rw [resolveSnapshot, if_neg hc]
      have hq2 : (done ++ { e with consumed := true } :: (rest ++ extra)) ++
          pushesOfTrace (resolveEvent s e).2 =
          (done ++ [{ e with consumed := true }]) ++
            (rest ++ (extra ++ pushesOfTrace (resolveEvent s e).2)) := by
        simp
      rw [hq2, show done.length + 1 = (done ++ [{ e with consumed := true }]).length by simp]
      have hih := ih (done ++ [{ e with consumed := true }])
        (extra ++ pushesOfTrace (resolveEvent s e).2) (resolveEvent s e).1
      exact ⟨hih.1, by rw [hih.2]⟩

/-- The whole drain is a function of the snapshot: `processQueue` equals raw
deliveries over the snapshot followed by the pure snapshot resolution, and
it ends with an empty queue. -/
lemma processQueue_eq (s : InputManager) :
    processQueue s =
      ({ (resolveSnapshot s s.inputQueue).1 with inputQueue := [] },
        (s.rawListeners.flatMap fun idx => rawDeliveries idx s.inputQueue) ++
          (resolveSnapshot s s.inputQueue).2) := by
  have h := resolveLoop_snapshot s.inputQueue [] [] s
  simp only [List.nil_append, List.append_nil, List.length_nil] at h
  unfold processQueue
  rw [h.1, h.2]

/-- One `update` call on a state with an empty queue and no raw listeners,
given the result of resolving the tick's snapshot. -/
lemma update_run (s : InputManager) (tpf t : ℚ) (evs : List InputEvent)
    (s2 : InputManager) (tr : List Callback)
    (hq : s.inputQueue = []) (hraw : s.rawListeners = [])
    (hsnap : resolveSnapshot (tickStart s tpf t evs) evs = (s2, tr)) :
    update s tpf t evs =
      ({ s2 with
          inputQueue := pushesOfTrace (invokeUpdateActions { s2 with inputQueue := [] }),
          lastLastUpdateTime := s2.lastUpdateTime,
          lastUpdateTime := t },
        tr ++ invokeUpdateActions { s2 with inputQueue := [] }) := by
  unfold update
  rw [hq]
  simp only [List.nil_append]
  rw [processQueue_eq]
  have hqq : (tickStart s tpf t evs).inputQueue = evs := rfl
  have hrr : (tickStart s tpf t evs).rawListeners = s.rawListeners := rfl
  rw [hqq, hrr, hraw, hsnap]
  simp only [List.flatMap_nil, List.nil_append]

/-! ### Scenario fixtures and single-mapping dispatch lemmas -/

/-- A key event as built by the raw key source (non-repeating). -/
def keyEvt (code : ℤ) (pressed : Bool) (t : ℚ) : InputEvent :=
  { time := t, data := .keyEvt code pressed false }

/-- A mouse motion event carrying only deltas (position fields unused by
dispatch). -/
def motionEvt (dx dy dw : ℚ) (t : ℚ) : InputEvent :=
  { time := t, data := .mouseMotionEvt 0 0 dx dy 0 dw }

@[simp] lemma keyEvt_consumed (c : ℤ) (b : Bool) (t : ℚ) :
    (keyEvt c b t).consumed = false := rfl

@[simp] lemma keyEvt_time (c : ℤ) (b : Bool) (t : ℚ) : (keyEvt c b t).time = t := rfl

@[simp] lemma motionEvt_consumed (dx dy dw t : ℚ) :
    (motionEvt dx dy dw t).consumed = false := rfl

/-- Action callbacks of a listener list in engine order (reverse
registration order). -/
def actionTrace (nm : String) (L : List InputListener) (pressed : Bool) (tpf : ℚ) :
    List Callback :=
  L.reverse.filterMap fun l =>
    match l with
    | .action _ _ => some (.onAction l nm pressed tpf)
    | .analog _ _ => none

/-- Analog callbacks of a listener list in engine order. -/
def analogTrace (nm : String) (L : List InputListener) (value tpf : ℚ) :
    List Callback :=
  L.reverse.filterMap fun l =>
    match l with
    | .analog _ _ => some (.onAnalog l nm value tpf)
    | .action _ _ => none

/-- Mixed callbacks of `invokeAnalogsAndActions` with `valueChanged` true. -/
def mixedTrace (nm : String) (L : List InputListener) (value tpf : ℚ) :
    List Callback :=
  L.reverse.filterMap fun l =>
    match l with
    | .action _ _ => some (.onAction l nm true tpf)
    | .analog _ _ => some (.onAnalog l nm value tpf)

lemma invokeActions_single (s : InputManager) (h : ℤ) (nm : String)
    (tg : List ℤ) (L : List InputListener) (pressed : Bool)
    (hb : alookup s.bindings h = some [nm])
    (hm : alookup s.mappings nm = some { name := nm, triggers := tg, listeners := L }) :
    invokeActions s h pressed = actionTrace nm L pressed s.frameTPF := by
  simp [invokeActions, hb, getMapping, hm, actionCallbacksOf, actionTrace]

lemma invokeAnalogs_single (s : InputManager) (h : ℤ) (nm : String)
    (tg : List ℤ) (L : List InputListener) (value : ℚ) (isAxis : Bool)
    (hb : alookup s.bindings h = some [nm])
    (hm : alookup s.mappings nm = some { name := nm, triggers := tg, listeners := L }) :
    invokeAnalogs s h value isAxis =
      analogTrace nm L (if isAxis then value else value * s.frameTPF) s.frameTPF := by
  simp [invokeAnalogs, hb, getMapping, hm, analogCallbacksOf, analogTrace]

lemma invokeTimedActions_press (s : InputManager) (h : ℤ) (time : ℚ)
    (ns : List String) (hb : alookup s.bindings h = some ns) :
    invokeTimedActions s h time true =
      ({ s with pressedButtons := upsertSorted s.pressedButtons h time }, []) := by
  simp [invokeTimedActions, hb]

lemma invokeTimedActions_release (s : InputManager) (h : ℤ) (time p : ℚ)
    (ns : List String) (hb : alookup s.bindings h = some ns)
    (hpb : alookup s.pressedButtons h = some p) (hp : p ≠ 0)
    (hd : 0 < time - max p s.lastLastUpdateTime) :
    invokeTimedActions s h time false =
      ({ s with pressedButtons := removeKey s.pressedButtons h },
        invokeAnalogs s h (computeAnalogValue s (time - max p s.lastLastUpdateTime)) false) := by
  simp [invokeTimedActions, hb, hpb, hp, hd]

lemma resolveEvent_keyPress (s : InputManager) (p : ℚ) (ns : List String)
    (hb : alookup s.bindings 32 = some ns) :
    resolveEvent s (keyEvt 32 true p) =
      ({ s with pressedButtons := upsertSorted s.pressedButtons 32 p },
        invokeActions s 32 true) := by
  have h32 : keyHash 32 = some 32 := by decide
  simp [resolveEvent, keyEvt, onKeyEventQueued, h32,
    invokeTimedActions_press s 32 p ns hb]

lemma resolveEvent_keyRelease (s : InputManager) (r p : ℚ) (ns : List String)
    (hb : alookup s.bindings 32 = some ns)
    (hpb : alookup s.pressedButtons 32 = some p) (hp : p ≠ 0)
    (hd : 0 < r - max p s.lastLastUpdateTime) :
    resolveEvent s (keyEvt 32 false r) =
      ({ s with pressedButtons := removeKey s.pressedButtons 32 },
        invokeActions s 32 false ++
          invokeAnalogs s 32 (computeAnalogValue s (r - max p s.lastLastUpdateTime)) false) := by
  have h32 : keyHash 32 = some 32 := by decide
  simp [resolveEvent, keyEvt, onKeyEventQueued, h32,
    invokeTimedActions_release s 32 r p ns hb hpb hp hd]

lemma invokeUpdateActions_empty (s : InputManager)
    (hpb : s.pressedButtons = []) (hax : s.axisValues = []) :
    invokeUpdateActions s = [] := by
  simp [invokeUpdateActions, hpb, hax]

lemma invokeUpdateActions_held (s : InputManager) (h : ℤ) (p : ℚ)
    (hpb : s.pressedButtons = [(h, p)]) (hax : s.axisValues = [])
    (hd : 0 < s.lastUpdateTime - max s.lastLastUpdateTime p) :
    invokeUpdateActions s =
      invokeAnalogs s h
        (computeAnalogValue s (s.lastUpdateTime - max s.lastLastUpdateTime p)) false := by
  unfold invokeUpdateActions
  rw [hpb, hax]
  simp only [List.flatMap_cons, List.flatMap_nil, List.append_nil]
  rw [if_pos hd]

lemma invokeUpdateActions_held_neg (s : InputManager) (h : ℤ) (p : ℚ)
    (hpb : s.pressedButtons = [(h, p)]) (hax : s.axisValues = [])
    (hd : ¬ 0 < s.lastUpdateTime - max s.lastLastUpdateTime p) :
    invokeUpdateActions s = [] := by
  unfold invokeUpdateActions
  rw [hpb, hax]
  simp only [List.flatMap_cons, List.flatMap_nil, List.append_nil]
  rw [if_neg hd]

/-! ### Claim C6 -/

/-- C6 (amended): the per-tick drain operates on a fixed-size snapshot —
its whole behaviour (raw deliveries, resolution trace, resulting state) is
a function of the queue as it stood at drain start, so an event pushed into
the queue during drain processing is neither delivered nor resolved in that
drain; but the drain ends by clearing the *entire* queue (`inputQueue = []`),
not only the drained prefix, so the pushed event does not remain and is
never processed. -/
theorem c6_snapshot_drain_clears_whole_queue :
    ∀ s : InputManager,
      processQueue s =
        ({ (resolveSnapshot s s.inputQueue).1 with inputQueue := [] },
          (s.rawListeners.flatMap fun idx => rawDeliveries idx s.inputQueue) ++
            (resolveSnapshot s s.inputQueue).2) :=
  processQueue_eq

/-- The single event of the C6 counterexample scenario. -/
def c6QueuedEvent : InputEvent := keyEvt 40 true 1

/-- The event the listener pushes back into the queue during the drain. -/
def c6PushedEvent : InputEvent := keyEvt 33 true 2

/-- An action listener whose callback pushes `c6PushedEvent`. -/
def c6Listener : InputListener := .action 0 [c6PushedEvent]

/-- State with mapping `Fire` bound to key 40, one pushing listener, and one
queued press of key 40. -/
def c6State : InputManager :=
  { mappings := [("Fire", { name := "Fire", triggers := [40], listeners := [c6Listener] })],
    bindings := [(40, ["Fire"])],
    inputQueue := [c6QueuedEvent] }

/-- C6 counterexample: during the drain the listener pushes `c6PushedEvent`
into the queue, the drain delivers no callback for it, and — contrary to the
claim that only the drained prefix is cleared and the event remains for the
next tick — the queue after the drain is empty. -/
theorem c6_counterexample :
    (processQueue c6State).2 = [Callback.onAction c6Listener "Fire" true 0] ∧
    pushesOfTrace (processQueue c6State).2 = [c6PushedEvent] ∧
    (processQueue c6State).1.inputQueue = [] :=
  ⟨rfl, rfl, rfl⟩

/-! ### Claims C2 and C5 (mouse axis dispatch) -/

/-- State with a single mapping `Look` bound to the signed X half-axis
(`512` positive, `768` negative) and the given listeners. -/
def lookState (neg : Bool) (L : List InputListener) (tpf : ℚ) : InputManager :=
  { frameTPF := tpf,
    mappings := [("Look",
      { name := "Look", triggers := [if neg then 768 else 512], listeners := L })],
    bindings := [(if neg then 768 else 512, ["Look"])] }

/-- Number of analog callbacks in a trace. -/
def analogCount (tr : List Callback) : ℕ :=
  (tr.filter fun cb =>
    match cb with
    | .onAnalog _ _ _ _ => true
    | _ => false).length

/-- Number of action callbacks in a trace. -/
def actionCount (tr : List Callback) : ℕ :=
  (tr.filter fun cb =>
    match cb with
    | .onAction _ _ _ _ => true
    | _ => false).length

/-- Number of analog listeners in a listener list. -/
def analogListenerCount (L : List InputListener) : ℕ :=
  (L.filter fun l =>
    match l with
    | .analog _ _ => true
    | _ => false).length

/-- Number of action listeners in a listener list. -/
def actionListenerCount (L : List InputListener) : ℕ :=
  (L.filter fun l =>
    match l with
    | .action _ _ => true
    | _ => false).length

lemma count_analogTrace (nm : String) (v tpf : ℚ) (L : List InputListener) :
    analogCount (analogTrace nm L v tpf) = analogListenerCount L := by
  unfold analogCount analogTrace analogListenerCount
  rw [List.filterMap_reverse, List.filter_reverse, List.length_reverse]
  induction L with
  | nil => rfl
  | cons l rest ih => cases l <;> simp [ih]

lemma count_mixedTrace_analog (nm : String) (v tpf : ℚ) (L : List InputListener) :
    analogCount (mixedTrace nm L v tpf) = analogListenerCount L := by
  unfold analogCount mixedTrace analogListenerCount
  rw [List.filterMap_reverse, List.filter_reverse, List.length_reverse]
  induction L with
  | nil => rfl
  | cons l rest ih => cases l <;> simp [ih]

lemma count_mixedTrace_action (nm : String) (v tpf : ℚ) (L : List InputListener) :
    actionCount (mixedTrace nm L v tpf) = actionListenerCount L := by
  unfold actionCount mixedTrace actionListenerCount
  rw [List.filterMap_reverse, List.filter_reverse, List.length_reverse]
  induction L with
  | nil => rfl
  | cons l rest ih => cases l <;> simp [ih]

lemma actionCount_append (a b : List Callback) :
    actionCount (a ++ b) = actionCount a + actionCount b := by
  simp [actionCount, List.filter_append]

lemma resolveEvent_motion (s : InputManager) (dx dy dw t : ℚ) :
    resolveEvent s (motionEvt dx dy dw t) = (s, onMouseMotionEventQueued s dx dy dw) := rfl

lemma resolveSnapshot_nil (s : InputManager) : resolveSnapshot s [] = (s, []) := rfl

lemma resolveSnapshot_cons_unconsumed (s : InputManager) (e : InputEvent)
    (rest : List InputEvent) (hc : e.consumed = false) :
    resolveSnapshot s (e :: rest) =
      ((resolveSnapshot (resolveEvent s e).1 rest).1,
       (resolveEvent s e).2 ++ (resolveSnapshot (resolveEvent s e).1 rest).2) := by
  simp [resolveSnapshot, hc]

lemma invokeAnalogsAndActions_below (s : InputManager) (h : ℤ) (v dz : ℚ)
    (applyTpf : Bool) (hlt : v < dz) :
    invokeAnalogsAndActions s h v dz applyTpf = invokeAnalogs s h v (!applyTpf) := by
  unfold invokeAnalogsAndActions
  rw [if_pos hlt]

lemma invokeAnalogsAndActions_above_single (s : InputManager) (h : ℤ) (nm : String)
    (tg : List ℤ) (L : List InputListener) (v dz : ℚ) (applyTpf : Bool)
    (hge : ¬ v < dz)
    (hb : alookup s.bindings h = some [nm])
    (hm : alookup s.mappings nm = some { name := nm, triggers := tg, listeners := L })
    (hax : alookup s.axisValues h = none) :
    invokeAnalogsAndActions s h v dz applyTpf =
      mixedTrace nm L (if applyTpf then v * s.frameTPF else v) s.frameTPF := by
  unfold invokeAnalogsAndActions
  rw [if_neg hge, hb]
  simp [hax, truthyQ, getMapping, hm, mixedCallbacksOf, mixedTrace]

lemma lookState_bindings (neg : Bool) (L : List InputListener) (tpf : ℚ) :
    alookup (lookState neg L tpf).bindings (if neg then 768 else 512) = some ["Look"] := by
  simp [lookState, alookup]

lemma lookState_mappings (neg : Bool) (L : List InputListener) (tpf : ℚ) :
    alookup (lookState neg L tpf).mappings "Look" =
      some { name := "Look", triggers := [if neg then 768 else 512], listeners := L } := by
  simp [lookState, alookup]

lemma mouseAxisHash_x (neg : Bool) :
    mouseAxisHash AXIS_X neg = some (if neg then 768 else 512) := by
  cases neg <;> decide

/-- The trace of one X-axis motion dispatch against any state binding the
matching signed half-axis to a single mapping: below the dead zone the
analog listeners still fire (with the raw magnitude), at or above they fire
together with the action listeners. -/
lemma motion_trace_single (s : InputManager) (neg : Bool) (nm : String)
    (tg : List ℤ) (L : List InputListener) (dx : ℚ)
    (hdx : dx ≠ 0) (hsign : decide (dx < 0) = neg)
    (hb : alookup s.bindings (if neg then 768 else 512) = some [nm])
    (hm : alookup s.mappings nm = some { name := nm, triggers := tg, listeners := L })
    (hax : alookup s.axisValues (if neg then 768 else 512) = none) :
    onMouseMotionEventQueued s dx 0 0 =
      if |dx| / 1024 < s.globalAxisDeadZone then
        analogTrace nm L (|dx| / 1024) s.frameTPF
      else mixedTrace nm L (|dx| / 1024) s.frameTPF := by
  unfold onMouseMotionEventQueued
  rw [if_pos hdx, if_neg (by norm_num), if_neg (by norm_num), hsign,
    List.append_nil, List.append_nil, mouseAxisHash_x]
  show invokeAnalogsAndActions s (if neg then 768 else 512)
      (|dx| / 1024) s.globalAxisDeadZone false = _
  by_cases hv : |dx| / 1024 < s.globalAxisDeadZone
  · rw [if_pos hv, invokeAnalogsAndActions_below _ _ _ _ _ hv]
    rw [invokeAnalogs_single _ _ nm tg L _ _ hb hm]
    norm_num
  · rw [if_neg hv, invokeAnalogsAndActions_above_single _ _ nm tg L _ _ _ hv hb hm hax]
    norm_num

/-- Trace of one X-axis motion dispatch against `lookState`. -/
lemma lookState_motion_trace (neg : Bool) (L : List InputListener) (tpf dx : ℚ)
    (hdx : dx ≠ 0) (hsign : decide (dx < 0) = neg) :
    onMouseMotionEventQueued (lookState neg L tpf) dx 0 0 =
      if |dx| / 1024 < 1/20 then analogTrace "Look" L (|dx| / 1024) tpf
      else mixedTrace "Look" L (|dx| / 1024) tpf := by
  have h := motion_trace_single (lookState neg L tpf) neg "Look"
    [if neg then 768 else 512] L dx hdx hsign
    (lookState_bindings neg L tpf) (lookState_mappings neg L tpf) rfl
  exact h

/-- C2 counterexample: an X delta of 1 normalizes to `1/1024`, strictly
below the dead zone `1/20`, yet the analog listener receives one callback
(with the raw magnitude), not zero. -/
theorem c2_counterexample :
    ((1 : ℚ)/1024 < 1/20) ∧
    onMouseMotionEventQueued (lookState false [.analog 0 []] (1/60)) 1 0 0 =
      [Callback.onAnalog (.analog 0 []) "Look" (1/1024) (1/60)] ∧
    analogCount (onMouseMotionEventQueued (lookState false [.analog 0 []] (1/60)) 1 0 0) = 1 := by
  have h := lookState_motion_trace false [.analog 0 []] (1/60) 1 (by norm_num) (by norm_num)
  rw [abs_one, if_pos (by norm_num)] at h
  exact ⟨by norm_num, by rw [h]; rfl, by rw [h]; rfl⟩

/-- C2 (amended): every non-zero X delta produces exactly one analog
callback per analog listener of the bound mapping, on both sides of the
dead zone: below the threshold the raw magnitude is delivered through the
plain analog path, at or above it the mixed analog/action path runs.  The
dead zone gates only the action callbacks, not the analog ones. -/
theorem c2_dead_zone_gates_actions_not_analogs :
    ∀ (neg : Bool) (L : List InputListener) (tpf dx : ℚ),
      dx ≠ 0 → decide (dx < 0) = neg →
      (onMouseMotionEventQueued (lookState neg L tpf) dx 0 0 =
        if |dx| / 1024 < 1/20 then analogTrace "Look" L (|dx| / 1024) tpf
        else mixedTrace "Look" L (|dx| / 1024) tpf) ∧
      analogCount (onMouseMotionEventQueued (lookState neg L tpf) dx 0 0) =
        analogListenerCount L := by
  intro neg L tpf dx hdx hsign
  have main := lookState_motion_trace neg L tpf dx hdx hsign
  refine ⟨main, ?_⟩
  rw [main]
  by_cases hv : |dx| / 1024 < 1/20
  · rw [if_pos hv, count_analogTrace]
  · rw [if_neg hv, count_mixedTrace_analog]

/-- Witness for C2's amended theorem: delta 1 (below threshold) against a
single analog listener. -/
theorem c2_dead_zone_gates_actions_not_analogs_witness :
    (onMouseMotionEventQueued (lookState false [.analog 0 []] (1/60)) 1 0 0 =
      if |(1 : ℚ)| / 1024 < 1/20 then analogTrace "Look" [.analog 0 []] (|(1 : ℚ)| / 1024) (1/60)
      else mixedTrace "Look" [.analog 0 []] (|(1 : ℚ)| / 1024) (1/60)) ∧
    analogCount (onMouseMotionEventQueued (lookState false [.analog 0 []] (1/60)) 1 0 0) =
      analogListenerCount [.analog 0 []] :=
  c2_dead_zone_gates_actions_not_analogs false [.analog 0 []] (1/60) 1
    (by norm_num) (by norm_num)

/-! ### Claim C5 -/

lemma invokeTimedActions_axisValues (s : InputManager) (h : ℤ) (time : ℚ)
    (pressed : Bool) :
    ((invokeTimedActions s h time pressed).1).axisValues = s.axisValues := by
  unfold invokeTimedActions
  repeat' split
  all_goals rfl

lemma resolveEvent_axisValues (s : InputManager) (e : InputEvent) :
    ((resolveEvent s e).1).axisValues = s.axisValues := by
  rcases e with ⟨t, c, d⟩
  cases d with
  | mouseMotionEvt x y dx dy w dw => rfl
  | keyEvt code pr rep =>
    show ((onKeyEventQueued s code pr rep t).1).axisValues = s.axisValues
    unfold onKeyEventQueued
    repeat' split
    all_goals first
      | rfl
      | exact invokeTimedActions_axisValues ..
  | mouseButtonEvt idx pr x y =>
    show ((onMouseButtonEventQueued s idx pr t).1).axisValues = s.axisValues
    unfold onMouseButtonEventQueued
    repeat' split
    all_goals first
      | rfl
      | exact invokeTimedActions_axisValues ..

lemma resolveLoop_axisValues :
    ∀ (remaining i : ℕ) (s : InputManager) (queue : List InputEvent),
      ((resolveLoop i s queue remaining).1).axisValues = s.axisValues := by
  intro remaining
  induction remaining with
  | zero => intro i s queue; rfl
  | succ n ih =>
    intro i s queue
    rw [resolveLoop]
    split
    · exact ih (i + 1) s queue
    · rw [ih, resolveEvent_axisValues]

lemma processQueue_axisValues (s : InputManager) :
    ((processQueue s).1).axisValues = s.axisValues := by
  unfold processQueue
  exact resolveLoop_axisValues ..

/-- State of the C5 counterexample: `Look` bound to the positive X
half-axis with one action and one analog listener. -/
def c5State : InputManager := lookState false [.action 0 [], .analog 1 []] (1/60)

/-- C5 counterexample: two above-threshold X motion events dispatched in the
same tick (the same accumulation window) each fire the action listener —
two `pressed=true` action callbacks, where the claim allows only the first
event to fire one. -/
theorem c5_counterexample :
    ¬ ((100 : ℚ)/1024 < 1/20) ∧
    actionCount ((update c5State (1/60) 1 [motionEvt 100 0 0 1, motionEvt 100 0 0 1]).2) = 2 := by
  have habs : |(100 : ℚ)| = 100 := abs_of_pos (by norm_num)
  have hv : ¬ (|(100 : ℚ)| / 1024 < (1 : ℚ)/20) := by rw [habs]; norm_num
  have hsign : decide ((100 : ℚ) < 0) = false := decide_eq_false (by norm_num)
  have hmot : onMouseMotionEventQueued
      (tickStart c5State (1/60) 1 [motionEvt 100 0 0 1, motionEvt 100 0 0 1]) 100 0 0 =
      mixedTrace "Look" [.action 0 [], .analog 1 []] (|(100 : ℚ)| / 1024) (1/60) := by
    have h := motion_trace_single
      (tickStart c5State (1/60) 1 [motionEvt 100 0 0 1, motionEvt 100 0 0 1])
      false "Look" [512] [.action 0 [], .analog 1 []] 100 (by norm_num) hsign rfl rfl rfl
    have hdz : (tickStart c5State (1/60) 1
        [motionEvt 100 0 0 1, motionEvt 100 0 0 1]).globalAxisDeadZone = (1 : ℚ)/20 := rfl
    have htpf : (tickStart c5State (1/60) 1
        [motionEvt 100 0 0 1, motionEvt 100 0 0 1]).frameTPF = (1 : ℚ)/60 := rfl
    rw [hdz, htpf] at h
    rw [h, if_neg hv]
  have hsnap : resolveSnapshot
      (tickStart c5State (1/60) 1 [motionEvt 100 0 0 1, motionEvt 100 0 0 1])
      [motionEvt 100 0 0 1, motionEvt 100 0 0 1] =
      (tickStart c5State (1/60) 1 [motionEvt 100 0 0 1, motionEvt 100 0 0 1],
        mixedTrace "Look" [.action 0 [], .analog 1 []] (|(100 : ℚ)| / 1024) (1/60) ++
          mixedTrace "Look" [.action 0 [], .analog 1 []] (|(100 : ℚ)| / 1024) (1/60)) := by
    rw [resolveSnapshot_cons_unconsumed _ _ _ rfl, resolveEvent_motion]
    dsimp only
    rw [resolveSnapshot_cons_unconsumed _ _ _ rfl, resolveEvent_motion]
    dsimp only
    rw [resolveSnapshot_nil]
    dsimp only
    rw [hmot, List.append_nil]
  have hupd := update_run c5State (1/60) 1 [motionEvt 100 0 0 1, motionEvt 100 0 0 1]
    (tickStart c5State (1/60) 1 [motionEvt 100 0 0 1, motionEvt 100 0 0 1])
    (mixedTrace "Look" [.action 0 [], .analog 1 []] (|(100 : ℚ)| / 1024) (1/60) ++
      mixedTrace "Look" [.action 0 [], .analog 1 []] (|(100 : ℚ)| / 1024) (1/60))
    rfl rfl hsnap
  have hset : invokeUpdateActions
      { tickStart c5State (1/60) 1 [motionEvt 100 0 0 1, motionEvt 100 0 0 1] with
        inputQueue := [] } = [] :=
    invokeUpdateActions_empty _ rfl rfl
  refine ⟨by norm_num, ?_⟩
  rw [hupd]
  dsimp only
  rw [hset, List.append_nil, actionCount_append, count_mixedTrace_action]
  rfl

/-- C5 (amended): the `axisValues` table that is meant to detect "first
activation" is never written by any engine operation (`update` preserves it
verbatim), so its lookup is always falsy and *every* above-dead-zone motion
dispatch fires the bound action listeners with `pressed=true` (one callback
per action listener per event), alongside the analog listeners. -/
theorem c5_every_above_threshold_motion_fires_actions :
    (∀ (neg : Bool) (L : List InputListener) (tpf dx : ℚ),
      dx ≠ 0 → decide (dx < 0) = neg → ¬ (|dx| / 1024 < 1/20) →
      onMouseMotionEventQueued (lookState neg L tpf) dx 0 0 =
        mixedTrace "Look" L (|dx| / 1024) tpf ∧
      actionCount (onMouseMotionEventQueued (lookState neg L tpf) dx 0 0) =
        actionListenerCount L) ∧
    (∀ (s : InputManager) (tpf t : ℚ) (evs : List InputEvent),
      ((update s tpf t evs).1).axisValues = s.axisValues) := by
  constructor
  · intro neg L tpf dx hdx hsign hv
    have main := lookState_motion_trace neg L tpf dx hdx hsign
    rw [if_neg hv] at main
    exact ⟨main, by rw [main, count_mixedTrace_action]⟩
  · intro s tpf t evs
    show (update s tpf t evs).1.axisValues = s.axisValues
    unfold update
    simp only
    rw [show ∀ s2 : InputManager, ({ s2 with
        inputQueue := s2.inputQueue ++ pushesOfTrace (invokeUpdateActions s2),
        lastLastUpdateTime := s2.lastUpdateTime,
        lastUpdateTime := t } : InputManager).axisValues = s2.axisValues from fun _ => rfl]
    rw [processQueue_axisValues]
    rfl

/-- Witness for C5's amended theorem at delta 100 against one action and one
analog listener. -/
theorem c5_every_above_threshold_motion_fires_actions_witness :
    (onMouseMotionEventQueued (lookState false [.action 0 [], .analog 1 []] (1/60)) 100 0 0 =
      mixedTrace "Look" [.action 0 [], .analog 1 []] (|(100 : ℚ)| / 1024) (1/60) ∧
     actionCount (onMouseMotionEventQueued
        (lookState false [.action 0 [], .analog 1 []] (1/60)) 100 0 0) =
      actionListenerCount [.action 0 [], .analog 1 []]) :=
  c5_every_above_threshold_motion_fires_actions.1 false [.action 0 [], .analog 1 []]
    (1/60) 100 (by norm_num) (by norm_num) (by norm_num)

/-! ### Claims C1 and C3 (press/release within one tick) -/

/-- State with a single mapping `Jump` bound to key 32 and the given
listeners, parametrized over the timing scalars, the pressed-button table
and the queue. -/
def jumpState (L : List InputListener) (tpf fd : ℚ) (sm : Bool) (ll lu : ℚ)
    (pb : List (ℤ × ℚ)) (q : List InputEvent) : InputManager :=
  { frameTPF := tpf, lastLastUpdateTime := ll, lastUpdateTime := lu, frameDelta := fd,
    mappings := [("Jump", { name := "Jump", triggers := [32], listeners := L })],
    bindings := [(32, ["Jump"])],
    inputQueue := q, pressedButtons := pb, safeMode := sm }

lemma analogCount_append (a b : List Callback) :
    analogCount (a ++ b) = analogCount a + analogCount b := by
  simp [analogCount, List.filter_append]

lemma count_actionTrace_analog (nm : String) (pr : Bool) (tpf : ℚ)
    (L : List InputListener) : analogCount (actionTrace nm L pr tpf) = 0 := by
  unfold analogCount actionTrace
  rw [List.filterMap_reverse, List.filter_reverse, List.length_reverse]
  induction L with
  | nil => rfl
  | cons l rest ih => cases l <;> simp [ih]

lemma count_actionTrace_action (nm : String) (pr : Bool) (tpf : ℚ)
    (L : List InputListener) : actionCount (actionTrace nm L pr tpf) = actionListenerCount L := by
  unfold actionCount actionTrace actionListenerCount
  rw [List.filterMap_reverse, List.filter_reverse, List.length_reverse]
  induction L with
  | nil => rfl
  | cons l rest ih => cases l <;> simp [ih]

lemma count_analogTrace_action (nm : String) (v tpf : ℚ)
    (L : List InputListener) : actionCount (analogTrace nm L v tpf) = 0 := by
  unfold actionCount analogTrace
  rw [List.filterMap_reverse, List.filter_reverse, List.length_reverse]
  induction L with
  | nil => rfl
  | cons l rest ih => cases l <;> simp [ih]

lemma resolveEvent_keyPress_jump (L : List InputListener) (tpf fd : ℚ) (sm : Bool)
    (ll lu : ℚ) (q : List InputEvent) (p : ℚ) :
    resolveEvent (jumpState L tpf fd sm ll lu [] q) (keyEvt 32 true p) =
      (jumpState L tpf fd sm ll lu [(32, p)] q, actionTrace "Jump" L true tpf) := by
  rw [resolveEvent_keyPress (jumpState L tpf fd sm ll lu [] q) p ["Jump"] rfl,
    invokeActions_single (jumpState L tpf fd sm ll lu [] q) 32 "Jump" [32] L true rfl rfl]
  rfl

lemma resolveEvent_keyRelease_jump (L : List InputListener) (tpf fd : ℚ) (sm : Bool)
    (ll lu : ℚ) (q : List InputEvent) (p r : ℚ) (hp : p ≠ 0)
    (hd : 0 < r - max p ll) :
    resolveEvent (jumpState L tpf fd sm ll lu [(32, p)] q) (keyEvt 32 false r) =
      (jumpState L tpf fd sm ll lu [] q,
        actionTrace "Jump" L false tpf ++
          analogTrace "Jump" L
            ((if sm ∨ fd = 0 then 1 else clamp ((r - max p ll) / fd) 0 1) * tpf) tpf) := by
  rw [resolveEvent_keyRelease (jumpState L tpf fd sm ll lu [(32, p)] q) r p ["Jump"] rfl
      (by simp [jumpState, alookup]) hp hd,
    invokeActions_single (jumpState L tpf fd sm ll lu [(32, p)] q) 32 "Jump" [32] L false
      rfl rfl,
    invokeAnalogs_single (jumpState L tpf fd sm ll lu [(32, p)] q) 32 "Jump" [32] L _ false
      rfl rfl]
  rfl

lemma snapshot_press_release (L : List InputListener) (tpf fd : ℚ) (sm : Bool)
    (ll lu : ℚ) (q : List InputEvent) (p r : ℚ) (hp : p ≠ 0)
    (hd : 0 < r - max p ll) :
    resolveSnapshot (jumpState L tpf fd sm ll lu [] q)
        [keyEvt 32 true p, keyEvt 32 false r] =
      (jumpState L tpf fd sm ll lu [] q,
        actionTrace "Jump" L true tpf ++
          (actionTrace "Jump" L false tpf ++
            analogTrace "Jump" L
              ((if sm ∨ fd = 0 then 1 else clamp ((r - max p ll) / fd) 0 1) * tpf) tpf)) := by
  rw [resolveSnapshot_cons_unconsumed _ _ _ rfl, resolveEvent_keyPress_jump]
  dsimp only
  rw [resolveSnapshot_cons_unconsumed _ _ _ rfl,
    resolveEvent_keyRelease_jump L tpf fd sm ll lu q p r hp hd]
  dsimp only
  rw [resolveSnapshot_nil]
  dsimp only
  rw [List.append_nil]

/-- The full `update` trace of a press at `p` and release at `r` queued in
the same tick: the action callbacks fire in order `true` then `false`, and
one normalized analog callback is delivered, scaled by the tick length. -/
lemma update_press_release_trace (L : List InputListener) (tpf t0 t1 t2 p r : ℚ)
    (hp : p ≠ 0) (hd : 0 < r - max p t0) :
    (update (jumpState L 0 0 false t0 t1 [] []) tpf t2
        [keyEvt 32 true p, keyEvt 32 false r]).2 =
      actionTrace "Jump" L true tpf ++
        (actionTrace "Jump" L false tpf ++
          analogTrace "Jump" L
            ((if tpf < 3/200 ∨ t2 - t1 = 0 then 1
              else clamp ((r - max p t0) / (t2 - t1)) 0 1) * tpf) tpf) := by
  have hsnap := snapshot_press_release L tpf (t2 - t1) (decide (tpf < 3/200)) t0 t1
    [keyEvt 32 true p, keyEvt 32 false r] p r hp hd
  have hrun := update_run (jumpState L 0 0 false t0 t1 [] []) tpf t2
    [keyEvt 32 true p, keyEvt 32 false r] _ _ rfl rfl hsnap
  rw [hrun]
  dsimp only
  rw [invokeUpdateActions_empty _ rfl rfl, List.append_nil]
  simp only [decide_eq_true_eq]

/-- C1 counterexample: safe-mode tick (`tpf = 1/100 < 0.015`), key pressed
at `p = 1` and released at `r = 2` within the same tick: the one analog
callback delivered carries value `1/100` (the full engagement `1.0` scaled
by the tick length), not `1.0` itself. -/
theorem c1_counterexample :
    (update (jumpState [.analog 0 []] 0 0 false 0 1 [] []) (1/100) (3/2)
        [keyEvt 32 true 1, keyEvt 32 false 2]).2 =
      [Callback.onAnalog (.analog 0 []) "Jump" (1/100) (1/100)] ∧
    (1 : ℚ)/100 ≠ 1 := by
  constructor
  · rw [update_press_release_trace [.analog 0 []] (1/100) 0 1 (3/2) 1 2 (by norm_num)
      (by rw [max_eq_left (by norm_num : (0 : ℚ) ≤ 1)]; norm_num)]
    rw [if_pos (Or.inl (by norm_num))]
    norm_num [actionTrace, analogTrace, List.filterMap_cons]
  · norm_num

/-- C1 (amended): on a safe-mode tick (`tpf < 0.015`), a key pressed and
released within the same tick delivers to every analog listener of the
bound mapping exactly one analog callback whose value is the full
engagement `1.0` scaled by the tick length (`1 * tpf`) — never a
division-derived fraction — and no other analog callback occurs. -/
theorem c1_safe_mode_full_engagement :
    ∀ (L : List InputListener) (tpf t0 t1 t2 p r : ℚ),
      tpf < 3/200 → 0 < p → t0 ≤ p → p < r →
      (update (jumpState L 0 0 false t0 t1 [] []) tpf t2
          [keyEvt 32 true p, keyEvt 32 false r]).2 =
        actionTrace "Jump" L true tpf ++
          (actionTrace "Jump" L false tpf ++ analogTrace "Jump" L (1 * tpf) tpf) ∧
      analogCount ((update (jumpState L 0 0 false t0 t1 [] []) tpf t2
          [keyEvt 32 true p, keyEvt 32 false r]).2) = analogListenerCount L := by
  intro L tpf t0 t1 t2 p r hsafe hp ht0 hpr
  have hmain := update_press_release_trace L tpf t0 t1 t2 p r hp.ne'
    (by rw [max_eq_left ht0]; exact sub_pos.mpr hpr)
  rw [if_pos (Or.inl hsafe)] at hmain
  refine ⟨hmain, ?_⟩
  rw [hmain, analogCount_append, analogCount_append, count_actionTrace_analog,
    count_actionTrace_analog, count_analogTrace]
  omega

/-- Witness for C1's amended theorem at concrete inputs. -/
theorem c1_safe_mode_full_engagement_witness :
    (update (jumpState [.analog 0 []] 0 0 false 0 1 [] []) (1/100) (3/2)
        [keyEvt 32 true 1, keyEvt 32 false 2]).2 =
      actionTrace "Jump" [.analog 0 []] true (1/100) ++
        (actionTrace "Jump" [.analog 0 []] false (1/100) ++
          analogTrace "Jump" [.analog 0 []] (1 * (1/100)) (1/100)) ∧
    analogCount ((update (jumpState [.analog 0 []] 0 0 false 0 1 [] []) (1/100) (3/2)
        [keyEvt 32 true 1, keyEvt 32 false 2]).2) =
      analogListenerCount [.analog 0 []] :=
  c1_safe_mode_full_engagement [.analog 0 []] (1/100) 0 1 (3/2) 1 2
    (by norm_num) (by norm_num) (by norm_num) (by norm_num)

/-- C3 counterexample: tick length `1/50`, boundaries `t1 = 1`,
`t2 = 51/50`, press at `101/100`, release at `51/50` (held `1/100 ≤ 1/50`):
the analog callback delivered carries `clamp(d/Δ) · tpf = 1/100`, not the
claimed bare `clamp(d/Δ) = 1/2`. -/
theorem c3_counterexample :
    (update (jumpState [.analog 0 []] 0 0 false (49/50) 1 [] []) (1/50) (51/50)
        [keyEvt 32 true (101/100), keyEvt 32 false (51/50)]).2 =
      [Callback.onAnalog (.analog 0 []) "Jump" (1/100) (1/50)] ∧
    (1 : ℚ)/100 ≠ clamp ((51/50 - 101/100) / (51/50 - 1)) 0 1 := by
  constructor
  · rw [update_press_release_trace [.analog 0 []] (1/50) (49/50) 1 (51/50) (101/100)
      (51/50) (by norm_num)
      (by rw [max_eq_left (by norm_num : (49:ℚ)/50 ≤ 101/100)]; norm_num)]
    rw [max_eq_left (by norm_num : (49:ℚ)/50 ≤ 101/100)]
    rw [if_neg (by push_neg; constructor <;> norm_num)]
    norm_num [actionTrace, analogTrace, clamp, List.filterMap_cons]
  · norm_num [clamp]

/-- C3 (amended): a key pressed at `p` and released at `r` within one tick,
with `0 < d = r - p ≤ T` and a non-degenerate tick (`T ≥ 0.015`, input-clock
frame delta `Δ = t2 - t1 ≠ 0`), yields exactly one analog callback per
analog listener with value `clamp(d/Δ, 0, 1) · T` — the claimed clamped
quotient additionally scaled by the tick length — and exactly two action
callbacks per action listener, `pressed=true` before `pressed=false`. -/
theorem c3_press_release_analog_value :
    ∀ (L : List InputListener) (tpf t0 t1 t2 p r : ℚ),
      0 < p → t0 ≤ p → p < r → r - p ≤ tpf → ¬ (tpf < 3/200) → t2 - t1 ≠ 0 →
      (update (jumpState L 0 0 false t0 t1 [] []) tpf t2
          [keyEvt 32 true p, keyEvt 32 false r]).2 =
        actionTrace "Jump" L true tpf ++
          (actionTrace "Jump" L false tpf ++
            analogTrace "Jump" L (clamp ((r - p) / (t2 - t1)) 0 1 * tpf) tpf) ∧
      analogCount ((update (jumpState L 0 0 false t0 t1 [] []) tpf t2
          [keyEvt 32 true p, keyEvt 32 false r]).2) = analogListenerCount L ∧
      actionCount ((update (jumpState L 0 0 false t0 t1 [] []) tpf t2
          [keyEvt 32 true p, keyEvt 32 false r]).2) = 2 * actionListenerCount L := by
  intro L tpf t0 t1 t2 p r hp ht0 hpr hdT hns hfd
  have hmain := update_press_release_trace L tpf t0 t1 t2 p r hp.ne'
    (by rw [max_eq_left ht0]; exact sub_pos.mpr hpr)
  rw [max_eq_left ht0, if_neg (not_or.mpr ⟨hns, hfd⟩)] at hmain
  refine ⟨hmain, ?_, ?_⟩
  · rw [hmain, analogCount_append, analogCount_append, count_actionTrace_analog,
      count_actionTrace_analog, count_analogTrace]
    omega
  · rw [hmain, actionCount_append, actionCount_append, count_actionTrace_action,
      count_actionTrace_action, count_analogTrace_action]
    omega

/-- Witness for C3's amended theorem at concrete inputs. -/
theorem c3_press_release_analog_value_witness :
    ((update (jumpState [.analog 0 []] 0 0 false (49/50) 1 [] []) (1/50) (51/50)
        [keyEvt 32 true (101/100), keyEvt 32 false (51/50)]).2 =
      actionTrace "Jump" [.analog 0 []] true (1/50) ++
        (actionTrace "Jump" [.analog 0 []] false (1/50) ++
          analogTrace "Jump" [.analog 0 []]
            (clamp ((51/50 - 101/100) / (51/50 - 1)) 0 1 * (1/50)) (1/50)) ∧
     analogCount ((update (jumpState [.analog 0 []] 0 0 false (49/50) 1 [] []) (1/50) (51/50)
        [keyEvt 32 true (101/100), keyEvt 32 false (51/50)]).2) =
      analogListenerCount [.analog 0 []] ∧
     actionCount ((update (jumpState [.analog 0 []] 0 0 false (49/50) 1 [] []) (1/50) (51/50)
        [keyEvt 32 true (101/100), keyEvt 32 false (51/50)]).2) =
      2 * actionListenerCount [.analog 0 []]) :=
  c3_press_release_analog_value [.analog 0 []] (1/50) (49/50) 1 (51/50) (101/100) (51/50)
    (by norm_num) (by norm_num) (by norm_num) (by norm_num) (by norm_num) (by norm_num)

/-! ### Claim C4 (key held across N ticks) -/

/-- The listener set of the C4 scenario: one action listener and one analog
listener registered on `Jump`. -/
def c4L : List InputListener := [.action 0 [], .analog 1 []]

lemma actionTrace_c4L (pr : Bool) (tpf : ℚ) :
    actionTrace "Jump" c4L pr tpf = [Callback.onAction (.action 0 []) "Jump" pr tpf] := rfl

lemma analogTrace_c4L (v tpf : ℚ) :
    analogTrace "Jump" c4L v tpf = [Callback.onAnalog (.analog 1 []) "Jump" v tpf] := rfl

lemma runUpdates_nil (s : InputManager) : runUpdates s [] = (s, []) := rfl

lemma runUpdates_cons (s : InputManager) (tpf t : ℚ) (evs : List InputEvent)
    (rest : List (ℚ × ℚ × List InputEvent)) :
    runUpdates s ((tpf, t, evs) :: rest) =
      ((runUpdates (update s tpf t evs).1 rest).1,
       (update s tpf t evs).2 ++ (runUpdates (update s tpf t evs).1 rest).2) := rfl

lemma runUpdates_append (l1 : List (ℚ × ℚ × List InputEvent)) :
    ∀ (s : InputManager) (l2 : List (ℚ × ℚ × List InputEvent)),
      runUpdates s (l1 ++ l2) =
        ((runUpdates (runUpdates s l1).1 l2).1,
         (runUpdates s l1).2 ++ (runUpdates (runUpdates s l1).1 l2).2) := by
  induction l1 with
  | nil =>
    intro s l2
    simp [runUpdates_nil]
  | cons a rest ih =>
    intro s l2
    rcases a with ⟨tpf, t, evs⟩
    rw [List.cons_append, runUpdates_cons, runUpdates_cons, ih]
    dsimp only
    rw [List.append_assoc]

/-- The press update of the C4 run: the press is recorded, the action
listener fires once with `pressed=true`, and the same-tick settle is
skipped (the press lies beyond the stored boundary). -/
lemma update_press_step (T c ll lu p : ℚ)
    (hnd : ¬ 0 < lu - max ll p) :
    update (jumpState c4L 0 0 false ll lu [] []) T c [keyEvt 32 true p] =
      (jumpState c4L T (c - lu) (decide (T < 3/200)) lu c [(32, p)] [],
        actionTrace "Jump" c4L true T) := by
  have hsnap : resolveSnapshot
      (tickStart (jumpState c4L 0 0 false ll lu [] []) T c [keyEvt 32 true p])
      [keyEvt 32 true p] =
      (jumpState c4L T (c - lu) (decide (T < 3/200)) ll lu [(32, p)] [keyEvt 32 true p],
        actionTrace "Jump" c4L true T) := by
    rw [show tickStart (jumpState c4L 0 0 false ll lu [] []) T c [keyEvt 32 true p] =
        jumpState c4L T (c - lu) (decide (T < 3/200)) ll lu [] [keyEvt 32 true p] from rfl]
    rw [resolveSnapshot_cons_unconsumed _ _ _ rfl, resolveEvent_keyPress_jump]
    dsimp only
    rw [resolveSnapshot_nil]
    dsimp only
    rw [List.append_nil]
  have hrun := update_run (jumpState c4L 0 0 false ll lu [] []) T c [keyEvt 32 true p]
    _ _ rfl rfl hsnap
  rw [hrun]
  have hset := invokeUpdateActions_held_neg
    ({ jumpState c4L T (c - lu) (decide (T < 3/200)) ll lu [(32, p)]
        [keyEvt 32 true p] with inputQueue := [] }) 32 p rfl rfl hnd
  rw [hset]
  rfl

/-- A middle update of the C4 run (no events, key still held): exactly one
settle-phase analog callback fires, with the interim duration
`lastUpdateTime - max(lastLastUpdateTime, pressTime)`, normalized against
the current tick and scaled by the tick length. -/
lemma update_held_step (tpf fd : ℚ) (sm : Bool) (ll lu p c T : ℚ)
    (hd : 0 < lu - max ll p) :
    update (jumpState c4L tpf fd sm ll lu [(32, p)] []) T c [] =
      (jumpState c4L T (c - lu) (decide (T < 3/200)) lu c [(32, p)] [],
        analogTrace "Jump" c4L
          ((if decide (T < 3/200) = true ∨ c - lu = 0 then 1
            else clamp ((lu - max ll p) / (c - lu)) 0 1) * T) T) := by
  have hrun := update_run (jumpState c4L tpf fd sm ll lu [(32, p)] []) T c []
    (jumpState c4L T (c - lu) (decide (T < 3/200)) ll lu [(32, p)] []) []
    rfl rfl (resolveSnapshot_nil _)
  rw [hrun]
  have hset := invokeUpdateActions_held
    ({ jumpState c4L T (c - lu) (decide (T < 3/200)) ll lu [(32, p)] [] with
        inputQueue := [] }) 32 p rfl rfl hd
  rw [hset]
  rfl

/-- The release update of the C4 run: the action listener fires once with
`pressed=false` and one final analog callback covers the tail interval
`releaseTime - max(pressTime, lastLastUpdateTime)`. -/
lemma update_release_step (tpf fd : ℚ) (sm : Bool) (ll lu p r c T : ℚ)
    (hp : p ≠ 0) (hd : 0 < r - max p ll) :
    update (jumpState c4L tpf fd sm ll lu [(32, p)] []) T c [keyEvt 32 false r] =
      (jumpState c4L T (c - lu) (decide (T < 3/200)) lu c [] [],
        actionTrace "Jump" c4L false T ++
          analogTrace "Jump" c4L
            ((if decide (T < 3/200) = true ∨ c - lu = 0 then 1
              else clamp ((r - max p ll) / (c - lu)) 0 1) * T) T) := by
  have hsnap : resolveSnapshot
      (tickStart (jumpState c4L tpf fd sm ll lu [(32, p)] []) T c [keyEvt 32 false r])
      [keyEvt 32 false r] =
      (jumpState c4L T (c - lu) (decide (T < 3/200)) ll lu [] [keyEvt 32 false r],
        actionTrace "Jump" c4L false T ++
          analogTrace "Jump" c4L
            ((if (decide (T < 3/200) : Bool) ∨ c - lu = 0 then 1
              else clamp ((r - max p ll) / (c - lu)) 0 1) * T) T) := by
    rw [show tickStart (jumpState c4L tpf fd sm ll lu [(32, p)] []) T c
        [keyEvt 32 false r] =
        jumpState c4L T (c - lu) (decide (T < 3/200)) ll lu [(32, p)]
          [keyEvt 32 false r] from rfl]
    rw [resolveSnapshot_cons_unconsumed _ _ _ rfl,
      resolveEvent_keyRelease_jump c4L T (c - lu) (decide (T < 3/200)) ll lu
        [keyEvt 32 false r] p r hp hd]
    dsimp only
    rw [resolveSnapshot_nil]
    dsimp only
    rw [List.append_nil]
  have hrun := update_run (jumpState c4L tpf fd sm ll lu [(32, p)] []) T c
    [keyEvt 32 false r] _ _ rfl rfl hsnap
  rw [hrun]
  have hset := invokeUpdateActions_empty
    ({ jumpState c4L T (c - lu) (decide (T < 3/200)) ll lu [] [keyEvt 32 false r] with
        inputQueue := [] }) rfl rfl
  rw [hset]
  rfl

/-- Running the N held ticks (no events, key still pressed): starting right
after the press tick, each tick emits exactly one settle analog callback and
advances the boundary pair. -/
lemma run_held_middles (T p : ℚ) (c : ℕ → ℚ) :
    ∀ n : ℕ, (∀ k, k < n → 0 < c (k + 1) - max (c k) p) →
      ∃ tpf2 fd2 sm2,
        runUpdates
            (jumpState c4L T (c 1 - c 0) (decide (T < 3/200)) (c 0) (c 1) [(32, p)] [])
            ((List.range n).map fun k => (T, c (k + 2), ([] : List InputEvent))) =
          (jumpState c4L tpf2 fd2 sm2 (c n) (c (n + 1)) [(32, p)] [],
           (List.range n).map fun k =>
             Callback.onAnalog (.analog 1 []) "Jump"
               ((if decide (T < 3/200) = true ∨ c (k + 2) - c (k + 1) = 0 then 1
                 else clamp ((c (k + 1) - max (c k) p) / (c (k + 2) - c (k + 1))) 0 1) * T)
               T) := by
  intro n
  induction n with
  | zero =>
    intro _
    exact ⟨T, c 1 - c 0, decide (T < 3/200), by rw [List.range_zero]; rfl⟩
  | succ n ih =>
    intro hpos
    obtain ⟨t2, f2, s2, hmid⟩ := ih (fun k hk => hpos k (by omega))
    refine ⟨T, c (n + 2) - c (n + 1), decide (T < 3/200), ?_⟩
    rw [List.range_succ, List.map_append, List.map_append, runUpdates_append, hmid]
    dsimp only
    rw [List.map_cons, List.map_nil, runUpdates_cons,
      update_held_step t2 f2 s2 (c n) (c (n + 1)) p (c (n + 2)) T (hpos n (by omega))]
    dsimp only
    rw [runUpdates_nil]
    dsimp only
    rw [analogTrace_c4L, List.append_nil]
    rfl

/-- Local monotonicity of the tick boundaries from the chain hypothesis. -/
lemma c_mono (c : ℕ → ℚ) (N : ℕ) (hchain : ∀ k, k ≤ N → c (k + 1) < c (k + 2))
    (i : ℕ) (h1 : 1 ≤ i) :
    ∀ j, i ≤ j → j ≤ N + 2 → c i ≤ c j := by
  intro j
  induction j with
  | zero => intro hij _; exact absurd hij (by omega)
  | succ jj ihj =>
    intro hij hj
    by_cases he : i = jj + 1
    · exact le_of_eq (congrArg c he)
    · have hij' : i ≤ jj := by omega
      obtain ⟨kk, rfl⟩ := Nat.exists_eq_succ_of_ne_zero
        (by omega : jj ≠ 0)
      have hstep := hchain kk (by omega)
      exact le_trans (ihj hij' (by omega)) (le_of_lt hstep)

/-- Telescoping: the settle durations of the held ticks sum to
`c n - p` once the press time dominates the first boundary. -/
lemma held_durs_sum (c : ℕ → ℚ) (p : ℚ) (hc0 : c 0 ≤ p) :
    ∀ n, 1 ≤ n → (∀ k, 1 ≤ k → k < n → p ≤ c k) →
      (((List.range n).map fun k => c (k + 1) - max (c k) p).sum) = c n - p := by
  intro n
  induction n with
  | zero => intro h; exact absurd h (by omega)
  | succ nn ih =>
    intro _ hk
    by_cases hz : nn = 0
    · subst hz
      rw [List.sum_range_succ]
      simp [max_eq_right hc0]
    · rw [List.sum_range_succ]
      rw [ih (by omega) (fun k h1 h2 => hk k h1 (by omega))]
      rw [max_eq_left (hk nn (by omega) (by omega))]
      ring

/-- Two `Ioc` intervals are disjoint when the first ends before the second
begins. -/
lemma ioc_disjoint {a b a2 b2 : ℚ} (h : b ≤ a2) :
    Disjoint (Set.Ioc a b) (Set.Ioc a2 b2) := by
  rw [Set.disjoint_left]
  rintro x ⟨_, hxb⟩ ⟨hax, _⟩
  exact absurd hax (not_lt.mpr (le_trans hxb h))

/-- C4: a key pressed at `p` during the first tick and held across `N`
further ticks until released at `r` yields exactly one `pressed=true`
action callback, exactly `N` settle-phase analog callbacks — one per held
tick, the `k`-th normalizing only that tick's incremental duration
`c (k+1) - max (c k, p)` — then exactly one `pressed=false` action callback
and the final release analog covering `r - max (p, c N)`; the reported
durations are positive, their intervals pairwise disjoint, and they sum to
exactly `r - p` (no time double-counted). -/
theorem c4_held_key_accounting :
    ∀ (N : ℕ) (T p r b0 : ℚ) (c : ℕ → ℚ),
      0 < p → c 0 < p → p < c 1 →
      (∀ k, k ≤ N → c (k + 1) < c (k + 2)) → c (N + 1) < r →
      ((runUpdates (jumpState c4L 0 0 false b0 (c 0) [] [])
          ((T, c 1, [keyEvt 32 true p]) ::
            ((List.range N).map fun k => (T, c (k + 2), ([] : List InputEvent))) ++
            [(T, c (N + 2), [keyEvt 32 false r])])).2 =
        Callback.onAction (.action 0 []) "Jump" true T ::
          (((List.range N).map fun k =>
              Callback.onAnalog (.analog 1 []) "Jump"
                ((if decide (T < 3/200) = true ∨ c (k + 2) - c (k + 1) = 0 then 1
                  else clamp ((c (k + 1) - max (c k) p) / (c (k + 2) - c (k + 1))) 0 1)
                  * T) T) ++
            [Callback.onAction (.action 0 []) "Jump" false T,
             Callback.onAnalog (.analog 1 []) "Jump"
               ((if decide (T < 3/200) = true ∨ c (N + 2) - c (N + 1) = 0 then 1
                 else clamp ((r - max p (c N)) / (c (N + 2) - c (N + 1))) 0 1) * T) T])) ∧
      ((((List.range N).map fun k => c (k + 1) - max (c k) p).sum +
          (r - max p (c N))) = r - p) ∧
      (∀ k, k < N → 0 < c (k + 1) - max (c k) p) ∧
      (0 < r - max p (c N)) ∧
      List.Pairwise Disjoint
        (((List.range N).map fun k => Set.Ioc (max (c k) p) (c (k + 1))) ++
          [Set.Ioc (max p (c N)) r]) := by
  intro N T p r b0 c h0p hc0p hpc1 hchain hr
  have hmono := c_mono c N hchain
  have hpc : ∀ k, 1 ≤ k → k ≤ N + 2 → p ≤ c k := fun k h1 h2 =>
    le_trans (le_of_lt hpc1) (hmono 1 (by omega) k h1 h2)
  have hpos : ∀ k, k < N → 0 < c (k + 1) - max (c k) p := by
    intro k hk
    by_cases hk0 : k = 0
    · subst hk0
      rw [max_eq_right (le_of_lt hc0p)]
      exact sub_pos.mpr hpc1
    · rw [max_eq_left (hpc k (by omega) (by omega))]
      obtain ⟨kk, rfl⟩ := Nat.exists_eq_succ_of_ne_zero hk0
      exact sub_pos.mpr (hchain kk (by omega))
  have hrel : 0 < r - max p (c N) := by
    by_cases hN : N = 0
    · subst hN
      rw [max_eq_left (le_of_lt hc0p)]
      exact sub_pos.mpr (lt_trans hpc1 hr)
    · rw [max_eq_right (hpc N (by omega) (by omega))]
      obtain ⟨NN, rfl⟩ := Nat.exists_eq_succ_of_ne_zero hN
      exact sub_pos.mpr (lt_trans (hchain NN (by omega)) hr)
  refine ⟨?_, ?_, hpos, hrel, ?_⟩
  · -- the full trace
    have hpress := update_press_step T (c 1) b0 (c 0) p
      (by rw [not_lt]; have hm := le_max_right b0 p; linarith)
    obtain ⟨t2, f2, s2, hmid⟩ := run_held_middles T p c N hpos
    have hrelstep := update_release_step t2 f2 s2 (c N) (c (N + 1)) p r (c (N + 2)) T
      h0p.ne' hrel
    rw [runUpdates_append]
    dsimp only
    rw [runUpdates_cons]
    dsimp only
    rw [hpress]
    dsimp only
    rw [hmid]
    dsimp only
    rw [runUpdates_cons]
    dsimp only
    rw [hrelstep]
    dsimp only
    rw [runUpdates_nil]
    dsimp only
    rw [actionTrace_c4L, actionTrace_c4L, analogTrace_c4L]
    simp only [List.append_nil, List.singleton_append, List.cons_append,
      List.nil_append, List.append_assoc]
  · -- durations sum to exactly r - p
    by_cases hN : N = 0
    · subst hN
      rw [max_eq_left (le_of_lt hc0p)]
      simp
    · rw [held_durs_sum c p (le_of_lt hc0p) N (by omega)
        (fun k h1 h2 => hpc k h1 (by omega))]
      rw [max_eq_right (hpc N (by omega) (by omega))]
      ring
  · -- pairwise disjoint intervals
    rw [List.pairwise_append]
    refine ⟨?_, List.pairwise_singleton _ _, ?_⟩
    · rw [List.pairwise_map]
      refine List.Pairwise.imp_of_mem ?_ (List.pairwise_lt_range N)
      intro i j hi hj hij
      rw [List.mem_range] at hi hj
      refine ioc_disjoint (le_trans ?_ (le_max_left _ _))
      exact hmono (i + 1) (by omega) j (by omega) (by omega)
    · intro a ha b hb
      rw [List.mem_singleton] at hb
      subst hb
      rw [List.mem_map] at ha
      obtain ⟨k, hkmem, rfl⟩ := ha
      rw [List.mem_range] at hkmem
      refine ioc_disjoint (le_trans ?_ (le_max_right _ _))
      exact hmono (k + 1) (by omega) N (by omega) (by omega)

/-- Concrete boundary clock for the C4 witness. -/
def c4wc : ℕ → ℚ := fun k => (k : ℚ)

/-- Witness for C4 at `N = 1`, unit tick boundaries, press `1/2`,
release `5/2`, tick length `1/50`. -/
theorem c4_held_key_accounting_witness :
    ((runUpdates (jumpState c4L 0 0 false 0 (c4wc 0) [] [])
        ((1/50, c4wc 1, [keyEvt 32 true (1/2)]) ::
          ((List.range 1).map fun k => (1/50, c4wc (k + 2), ([] : List InputEvent))) ++
          [(1/50, c4wc (1 + 2), [keyEvt 32 false (5/2)])])).2 =
      Callback.onAction (.action 0 []) "Jump" true (1/50) ::
        (((List.range 1).map fun k =>
            Callback.onAnalog (.analog 1 []) "Jump"
              ((if decide ((1:ℚ)/50 < 3/200) = true ∨ c4wc (k + 2) - c4wc (k + 1) = 0 then 1
                else clamp ((c4wc (k + 1) - max (c4wc k) (1/2)) /
                  (c4wc (k + 2) - c4wc (k + 1))) 0 1) * (1/50)) (1/50)) ++
          [Callback.onAction (.action 0 []) "Jump" false (1/50),
           Callback.onAnalog (.analog 1 []) "Jump"
             ((if decide ((1:ℚ)/50 < 3/200) = true ∨ c4wc (1 + 2) - c4wc (1 + 1) = 0 then 1
               else clamp ((5/2 - max (1/2) (c4wc 1)) /
                 (c4wc (1 + 2) - c4wc (1 + 1))) 0 1) * (1/50)) (1/50)])) ∧
    ((((List.range 1).map fun k => c4wc (k + 1) - max (c4wc k) (1/2)).sum +
        ((5:ℚ)/2 - max (1/2) (c4wc 1))) = 5/2 - 1/2) ∧
    (∀ k, k < 1 → 0 < c4wc (k + 1) - max (c4wc k) (1/2)) ∧
    (0 < (5:ℚ)/2 - max (1/2) (c4wc 1)) ∧
    List.Pairwise Disjoint
      (((List.range 1).map fun k => Set.Ioc (max (c4wc k) (1/2)) (c4wc (k + 1))) ++
        [Set.Ioc (max (1/2) (c4wc 1)) (5/2)]) :=
  c4_held_key_accounting 1 (1/50) (1/2) (5/2) 0 c4wc
    (by norm_num) (by norm_num [c4wc]) (by norm_num [c4wc])
    (by intro k hk; simp only [c4wc]; push_cast; linarith) (by norm_num [c4wc])

/-! ### Claim C8 -/

/-- C8: trigger hashing is deterministic (it is a function of the trigger's
fields) and injective over the representable ranges — key codes in
`[0,255]`, button indices in `[0,255]`, axes in `[0,2]` with a sign — and
for every axis the positive and negative half-axis hashes differ. -/
theorem c8_trigger_hash_injective :
    (∀ t1 t2 : Trigger, t1.representable = true → t2.representable = true →
        t1.triggerHashCode = t2.triggerHashCode → t1 = t2) ∧
    (∀ a : ℤ, 0 ≤ a → a ≤ 2 → mouseAxisHash a false ≠ mouseAxisHash a true) := by
  constructor
  · intro t1 t2 h1 h2 heq
    rw [hash_of_representable t1 h1, hash_of_representable t2 h2] at heq
    have he := Option.some.inj heq
    have b1 := representable_bounds t1 h1
    have b2 := representable_bounds t2 h2
    cases t1 with
    | key c1 =>
      cases t2 with
      | key c2 => simp only [encodeT] at he; rw [he]
      | mouseButton d2 => exfalso; simp only [encodeT] at he; omega
      | mouseAxis a2 n2 => exfalso; cases n2 <;> simp [encodeT] at he <;> omega
    | mouseButton d1 =>
      cases t2 with
      | key c2 => exfalso; simp only [encodeT] at he; omega
      | mouseButton d2 =>
        simp only [encodeT] at he
        rw [show d1 = d2 by omega]
      | mouseAxis a2 n2 => exfalso; cases n2 <;> simp [encodeT] at he <;> omega
    | mouseAxis a1 n1 =>
      cases t2 with
      | key c2 => exfalso; cases n1 <;> simp [encodeT] at he <;> omega
      | mouseButton d2 => exfalso; cases n1 <;> simp [encodeT] at he <;> omega
      | mouseAxis a2 n2 =>
        cases n1 <;> cases n2 <;> simp [encodeT] at he
        · rw [show a1 = a2 by omega]
        · exfalso; omega
        · exfalso; omega
        · rw [show a1 = a2 by omega]
  · intro a h0 h2
    have h255 : a ≤ 255 := by omega
    intro hcontra
    rw [mouseAxisHash, mouseAxisHash, if_pos (show 0 ≤ a ∧ a ≤ 255 from ⟨h0, h255⟩),
      if_pos (show 0 ≤ a ∧ a ≤ 255 from ⟨h0, h255⟩)] at hcontra
    simp at hcontra

/-- Witness for C8 at concrete triggers. -/
theorem c8_trigger_hash_injective_witness :
    Trigger.key 5 = Trigger.key 5 ∧ mouseAxisHash 1 false ≠ mouseAxisHash 1 true :=
  ⟨c8_trigger_hash_injective.1 (.key 5) (.key 5) (by decide) (by decide) rfl,
   c8_trigger_hash_injective.2 1 (by decide) (by decide)⟩

/-! ### Claim C9 -/

/-- C9 counterexample: `new KeyTrigger(256)` passes the (absent) constructor
validation of `KeyTrigger`, yet its `triggerHashCode()` falls through the
range guard of `keyHash` and returns `undefined`. -/
theorem c9_counterexample :
    (Trigger.key 256).constructible = true ∧
      (Trigger.key 256).triggerHashCode = none := by
  decide

/-- C9 (amended): the trigger hash is a total pure function on the
representable ranges — every representable trigger, and every mouse-axis
trigger accepted by its constructor, hashes to a defined integer.  (Key and
mouse-button triggers with fields outside `[0,255]` are constructible but
hash to `undefined`.) -/
theorem c9_hash_defined_on_ranges :
    (∀ t : Trigger, t.representable = true → (t.triggerHashCode).isSome = true) ∧
    (∀ (a : ℤ) (n : Bool), (Trigger.mouseAxis a n).constructible = true →
        ((Trigger.mouseAxis a n).triggerHashCode).isSome = true) := by
  constructor
  · intro t h
    rw [hash_of_representable t h]
    rfl
  · intro a n h
    have hr : (Trigger.mouseAxis a n).representable = true := by
      simp only [Trigger.constructible, decide_eq_true_eq] at h
      simp [Trigger.representable, h.1, h.2]
    rw [hash_of_representable _ hr]
    rfl

/-- Witness for C9's amended theorem at concrete triggers. -/
theorem c9_hash_defined_on_ranges_witness :
    ((Trigger.key 10).triggerHashCode).isSome = true ∧
    ((Trigger.mouseAxis 2 true).triggerHashCode).isSome = true :=
  ⟨c9_hash_defined_on_ranges.1 (.key 10) (by decide),
   c9_hash_defined_on_ranges.2 2 true (by decide)⟩

/-! ### Claim C7 -/

/-- C7: both `invokeActions` and `invokeAnalogs` deliver callbacks in exactly
the reverse of registration order — the engine trace is the reverse of the
in-order trace, so for two listeners of the same mapping the later-registered
one always fires first. -/
theorem c7_listeners_fire_in_reverse_order :
    (∀ (s : InputManager) (hash : ℤ) (pressed : Bool),
        invokeActions s hash pressed = (invokeActionsInOrder s hash pressed).reverse) ∧
    (∀ (s : InputManager) (hash : ℤ) (value : ℚ) (isAxis : Bool),
        invokeAnalogs s hash value isAxis =
          (invokeAnalogsInOrder s hash value isAxis).reverse) := by
  constructor
  · intro s hash pressed
    unfold invokeActions invokeActionsInOrder
    cases alookup s.bindings hash with
    | none => rfl
    | some names =>
      simp only [actionCallbacksOf, List.filterMap_reverse]
      exact reverse_flatMap_reverse _ names
  · intro s hash value isAxis
    unfold invokeAnalogs invokeAnalogsInOrder
    cases alookup s.bindings hash with
    | none => rfl
    | some names =>
      simp only [analogCallbacksOf, List.filterMap_reverse]
      exact reverse_flatMap_reverse _ names

/-! ### Claim C10 -/

/-- C10: the browser raw input sources drain their frame buffers by popping
from the end, so buffered events are delivered — and reach the engine's
input queue — newest-first (the reverse of arrival order); the mouse source
drains motions first, then buttons. -/
theorem c10_browser_buffers_drain_newest_first :
    (∀ buffer : List InputEvent, browserKeyUpdate buffer = buffer.reverse) ∧
    (∀ motions buttons : List InputEvent,
        browserMouseUpdate motions buttons = motions.reverse ++ buttons.reverse) ∧
    (∀ (s : InputManager) (buffer : List InputEvent),
        (browserKeyUpdate buffer).foldl onQueuedPush s =
          { s with inputQueue := s.inputQueue ++ buffer.reverse }) := by
  refine ⟨fun b => drainPop_eq_reverse b, fun m b => ?_, fun s b => ?_⟩
  · unfold browserMouseUpdate
    rw [drainPop_eq_reverse, drainPop_eq_reverse]
  · unfold browserKeyUpdate
    rw [drainPop_eq_reverse, foldl_onQueuedPush]

end Positron
